import Mathlib

/-!
Verification development for the CFB Ready Bot readiness/week state machine.

The bot stores global users, leagues, per-(server, league) week counters and
per-(user, league) ready statuses in four SQL tables (`db.py`), renders a
fixed-width status table per server (`table.py`), and advances a league's
week either automatically (all members ready) or manually. This file embeds
those tables as lists of typed rows and each database/rendering operation as
a pure function on a `DB` value, mirroring the SQL statement by statement:

* an SQL `UPDATE ... WHERE c` is a `List.map` that rewrites exactly the rows
  satisfying `c`; a `DELETE ... WHERE c` is a `List.filter` keeping `!c`;
* `fetchrow`/`fetchval` of a query is `List.find?`/`List.head?` of the
  embedded result set, `None` becoming `Option.none`;
* `COUNT(DISTINCT u.user_id)` is `List.length` of a `dedup` of the selected
  ids; `SELECT DISTINCT ... ORDER BY k` is `dedup` followed by a stable
  insertion sort on a fixed byte-wise string order (the collation model);
* Python floats only carry readiness percentages; they are modelled as `ℚ`,
  and the `f"{x:.0f}"` format as round-half-to-even on `ℚ`.

Python string helpers (`center`, `capitalize`, `upper`, slicing) are
re-implemented on `List Char` so that every definition evaluates inside the
kernel.
-/

namespace CFBReady

/-! ## Python string primitives -/

/-- Python `str.lower()` (ASCII model). -/
def pyLower (s : String) : String := String.mk (s.data.map Char.toLower)

/-- Python `str.upper()` (ASCII model). -/
def pyUpper (s : String) : String := String.mk (s.data.map Char.toUpper)

/-- Python slicing `s[:n]`. -/
def strTake (s : String) (n : Nat) : String := String.mk (s.data.take n)

/-- Python `str.capitalize()`: first character upper-cased, the rest lowered. -/
def pyCapitalize (s : String) : String :=
  match s.data with
  | [] => ""
  | c :: cs => String.mk (c.toUpper :: cs.map Char.toLower)

/-- Python `str.center(width)`: CPython puts `marg // 2 + (marg & width & 1)`
of the `marg = width - len` fill characters on the left. -/
def pyCenter (s : String) (width : Nat) : String :=
  let n := s.data.length
  if width ≤ n then s
  else
    let marg := width - n
    let left := marg / 2 + (marg &&& width &&& 1)
    String.mk (List.replicate left ' ') ++ s ++ String.mk (List.replicate (marg - left) ' ')

/-- Byte-wise lexicographic order on character lists (collation model for
SQL `ORDER BY` on text columns). -/
def lexLe : List Char → List Char → Bool
  | [], _ => true
  | _ :: _, [] => false
  | a :: as, b :: bs =>
    if a.toNat < b.toNat then true
    else if b.toNat < a.toNat then false
    else lexLe as bs

/-- The string order used to model `ORDER BY`. -/
def strLe (a b : String) : Bool := lexLe a.data b.data

/-! ## Data model: the four tables of `db.py create_tables` -/

/-- A row of `leagues` (`league_id SERIAL PRIMARY KEY, name TEXT UNIQUE,
display_name TEXT`). -/
structure LeagueRow where
  league_id : Nat
  name : String
  display_name : String
deriving DecidableEq

/-- A row of `server_leagues` (`server_id, league_id, current_week INT
DEFAULT 1, PRIMARY KEY (server_id, league_id)`). -/
structure ServerLeagueRow where
  server_id : Nat
  league_id : Nat
  current_week : Int
deriving DecidableEq

/-- A row of `users` (`user_id SERIAL PRIMARY KEY, username TEXT UNIQUE`).
The `discord_id`/`is_admin` columns take no part in the claims and are
dropped from the embedding. -/
structure UserRow where
  user_id : Nat
  username : String
deriving DecidableEq

/-- A row of `user_leagues` (`user_id, league_id, ready_status TEXT DEFAULT
'', PRIMARY KEY (user_id, league_id)`). -/
structure UserLeagueRow where
  user_id : Nat
  league_id : Nat
  ready_status : String
deriving DecidableEq

/-- The database state: the contents of the four tables. -/
structure DB where
  leagues : List LeagueRow
  server_leagues : List ServerLeagueRow
  users : List UserRow
  user_leagues : List UserLeagueRow
deriving DecidableEq

/-- Well-formedness: the PRIMARY KEY / UNIQUE constraints of the schema. -/
def DB.WF (db : DB) : Prop :=
  db.users.Pairwise (fun a b => a.user_id ≠ b.user_id) ∧
  db.users.Pairwise (fun a b => a.username ≠ b.username) ∧
  db.leagues.Pairwise (fun a b => a.league_id ≠ b.league_id) ∧
  db.leagues.Pairwise (fun a b => a.name ≠ b.name) ∧
  db.server_leagues.Pairwise (fun a b => (a.server_id, a.league_id) ≠ (b.server_id, b.league_id)) ∧
  db.user_leagues.Pairwise (fun a b => (a.user_id, a.league_id) ≠ (b.user_id, b.league_id))

/-! ## Scalar subqueries -/

/-- `SELECT user_id FROM users WHERE username = $1` as a scalar value. -/
def userIdOf (db : DB) (username : String) : Option Nat :=
  (db.users.find? (fun u => u.username == username)).map (fun u => u.user_id)

/-- `SELECT league_id FROM leagues WHERE name = $1` as a scalar value. -/
def leagueIdOf (db : DB) (lname : String) : Option Nat :=
  (db.leagues.find? (fun l => l.name == lname)).map (fun l => l.league_id)

/-- `SELECT current_week FROM server_leagues WHERE server_id = $1 AND
league_id = $2` over a row list. -/
def findWeek (rows : List ServerLeagueRow) (server_id league_id : Nat) : Option Int :=
  (rows.find? (fun sl => sl.server_id == server_id && sl.league_id == league_id)).map
    (fun sl => sl.current_week)

/-- The week of one (server, league) assignment of the database. -/
def getWeek (db : DB) (server_id league_id : Nat) : Option Int :=
  findWeek db.server_leagues server_id league_id

/-- `UPDATE server_leagues SET current_week = <g>(current_week) WHERE
server_id = $1 AND league_id = $2`: the one UPDATE shape both advance
(`g = (+1)`) and the explicit week override (`g` constant) use. -/
def updateWeek (rows : List ServerLeagueRow) (server_id league_id : Nat) (g : Int → Int) :
    List ServerLeagueRow :=
  rows.map (fun sl => if sl.server_id == server_id && sl.league_id == league_id then
    { sl with current_week := g sl.current_week } else sl)

/-! ## `db.py` status operations -/

/-- The WHERE clause of `get_user_status`: the membership row belongs to the
given league and is owned (via the `users` join) by the given username. -/
def statusPred (db : DB) (username : String) (league_id : Nat) (m : UserLeagueRow) : Bool :=
  m.league_id == league_id &&
    db.users.any (fun u => u.user_id == m.user_id && u.username == username)

/-- `DatabaseManager.get_user_status`: `fetchval` of the join; `none` when
the user is not in the league, `some ""` when a member who is not ready. -/
def get_user_status (db : DB) (username : String) (league_id : Nat) : Option String :=
  (db.user_leagues.find? (statusPred db username league_id)).map (fun m => m.ready_status)

/-- The WHERE clause of `update_user_status`: both scalar subqueries must
match (an SQL comparison with a NULL subquery matches no row). -/
def membKey (db : DB) (username league_name : String) (m : UserLeagueRow) : Bool :=
  userIdOf db username == some m.user_id && leagueIdOf db league_name == some m.league_id

/-- `DatabaseManager.update_user_status`: `UPDATE user_leagues SET
ready_status = $3 WHERE ...`; reports `result == "UPDATE 1"`. -/
def update_user_status (db : DB) (username league_name status : String) : DB × Bool :=
  ({ db with user_leagues := db.user_leagues.map (fun m =>
      if membKey db username league_name m then { m with ready_status := status } else m) },
   db.user_leagues.countP (membKey db username league_name) == 1)

/-! ## `db.py` membership operations -/

/-- The (user_id, league_id) key test on a membership row. -/
def mKey (user_id league_id : Nat) (m : UserLeagueRow) : Bool :=
  m.user_id == user_id && m.league_id == league_id

/-- `INSERT INTO user_leagues (user_id, league_id, ready_status) VALUES
($1, $2, '') ON CONFLICT (user_id, league_id) DO UPDATE SET ready_status = ''`. -/
def upsertMembership (rows : List UserLeagueRow) (user_id league_id : Nat) :
    List UserLeagueRow :=
  if rows.any (mKey user_id league_id) then
    rows.map (fun m => if mKey user_id league_id m then { m with ready_status := "" } else m)
  else rows ++ [⟨user_id, league_id, ""⟩]

/-- `DatabaseManager.add_existing_user_to_leagues`: `none` when the user does
not exist; otherwise the upsert runs for every league name that exists, and
the valid and invalid names are collected in order. -/
def add_existing_user_to_leagues (db : DB) (username : String) (league_names : List String) :
    DB × Option (List String × List String) :=
  match userIdOf db username with
  | none => (db, none)
  | some uid =>
    let r := league_names.foldl (fun acc ln =>
      match leagueIdOf acc.1 ln with
      | some lid =>
        ({ acc.1 with user_leagues := upsertMembership acc.1.user_leagues uid lid },
         acc.2.1 ++ [ln], acc.2.2)
      | none => (acc.1, acc.2.1, acc.2.2 ++ [ln])) (db, ([], []))
    (r.1, some r.2)

/-- The next value of the `users.user_id` SERIAL sequence (model). -/
def nextUserId (db : DB) : Nat := (db.users.map (fun u => u.user_id)).foldl max 0 + 1

/-- `INSERT INTO users (username) VALUES ($1) ON CONFLICT (username) DO
UPDATE SET username = $1 RETURNING user_id`: an upsert that keeps an
existing row and otherwise appends a fresh one. -/
def upsertUser (db : DB) (username : String) : DB :=
  if db.users.any (fun u => u.username == username) then db
  else { db with users := db.users ++ [⟨nextUserId db, username⟩] }

/-- `DatabaseManager.add_user_to_server`: upsert the user globally, then run
the membership upsert for each league name. -/
def add_user_to_server (db : DB) (username : String) (league_names : List String) :
    DB × List String × List String :=
  match userIdOf (upsertUser db username) username with
  | none => (upsertUser db username, [], [])
  | some uid =>
    league_names.foldl (fun acc ln =>
      match leagueIdOf acc.1 ln with
      | some lid =>
        ({ acc.1 with user_leagues := upsertMembership acc.1.user_leagues uid lid },
         acc.2.1 ++ [ln], acc.2.2)
      | none => (acc.1, acc.2.1, acc.2.2 ++ [ln])) (upsertUser db username, ([], []))

/-- `DatabaseManager.remove_user_from_leagues`: per league name, `DELETE FROM
user_leagues WHERE user_id = $1 AND league_id = (SELECT ...)`; a name is
reported removed when the delete touched exactly one row. -/
def remove_user_from_leagues (db : DB) (username : String) (league_names : List String) :
    DB × List String :=
  match userIdOf db username with
  | none => (db, [])
  | some uid =>
    league_names.foldl (fun acc ln =>
      let lid? := leagueIdOf acc.1 ln
      let hit := acc.1.user_leagues.countP (fun m => m.user_id == uid && some m.league_id == lid?)
      ({ acc.1 with user_leagues :=
          acc.1.user_leagues.filter (fun m => !(m.user_id == uid && some m.league_id == lid?)) },
       if hit == 1 then acc.2 ++ [ln] else acc.2)) (db, [])

/-- `DatabaseManager.delete_user_completely`: `DELETE FROM users WHERE
user_id = $1` with the `ON DELETE CASCADE` on `user_leagues`. -/
def delete_user_completely (db : DB) (username : String) : DB × Bool :=
  match userIdOf db username with
  | none => (db, false)
  | some uid =>
    ({ db with users := db.users.filter (fun u => !(u.user_id == uid)),
               user_leagues := db.user_leagues.filter (fun m => !(m.user_id == uid)) },
     db.users.countP (fun u => u.user_id == uid) == 1)

/-! ## `db.py` auto-advance -/

/-- `COUNT(DISTINCT u.user_id) FROM users u JOIN user_leagues ul ... WHERE
ul.league_id = $1`: the distinct ids of the league's memberships whose owner
exists in `users`. -/
def totalUserIds (db : DB) (league_id : Nat) : List Nat :=
  ((db.user_leagues.filter (fun m => m.league_id == league_id &&
      db.users.any (fun u => u.user_id == m.user_id))).map (fun m => m.user_id)).dedup

/-- The `total_users` count of `check_auto_advance`. -/
def total_users (db : DB) (league_id : Nat) : Nat := (totalUserIds db league_id).length

/-- As `totalUserIds` with the extra `ul.ready_status = 'X'` condition. -/
def readyUserIds (db : DB) (league_id : Nat) : List Nat :=
  ((db.user_leagues.filter (fun m => m.league_id == league_id && m.ready_status == "X" &&
      db.users.any (fun u => u.user_id == m.user_id))).map (fun m => m.user_id)).dedup

/-- The `ready_users` count of `check_auto_advance`. -/
def ready_users (db : DB) (league_id : Nat) : Nat := (readyUserIds db league_id).length

/-- `UPDATE user_leagues SET ready_status = '' WHERE league_id = $1` (global
across every server, by design). -/
def clearLeagueStatuses (rows : List UserLeagueRow) (league_id : Nat) : List UserLeagueRow :=
  rows.map (fun m => if m.league_id == league_id then { m with ready_status := "" } else m)

/-- `UPDATE server_leagues SET current_week = current_week + 1 WHERE
server_id = $1 AND league_id = $2`. -/
def bumpWeek (rows : List ServerLeagueRow) (server_id league_id : Nat) :
    List ServerLeagueRow :=
  updateWeek rows server_id league_id (fun w => w + 1)

/-- The league rows `check_auto_advance` fetches: leagues joined to
`server_leagues` rows of this server. -/
def leaguesForServer (db : DB) (server_id : Nat) : List LeagueRow :=
  db.leagues.filter (fun l => db.server_leagues.any
    (fun sl => sl.league_id == l.league_id && sl.server_id == server_id))

/-- One iteration of the `for league in leagues` loop of
`check_auto_advance`: skip when `total_users == 0`, advance when
`ready_users > 0 and ready_users == total_users`. -/
def advanceStep (server_id : Nat) (acc : DB × List String) (league : LeagueRow) :
    DB × List String :=
  if total_users acc.1 league.league_id = 0 then acc
  else if 0 < ready_users acc.1 league.league_id ∧
      ready_users acc.1 league.league_id = total_users acc.1 league.league_id then
    ({ acc.1 with user_leagues := clearLeagueStatuses acc.1.user_leagues league.league_id,
                  server_leagues := bumpWeek acc.1.server_leagues server_id league.league_id },
     acc.2 ++ [league.display_name])
  else acc

/-- `DatabaseManager.check_auto_advance`: the loop over this server's
leagues, returning the updated state and the advanced display names. -/
def check_auto_advance (db : DB) (server_id : Nat) : DB × List String :=
  (leaguesForServer db server_id).foldl (advanceStep server_id) (db, [])

/-- The composite branch condition of `check_auto_advance` for one league
(`total != 0`, then `ready > 0 and ready == total`). -/
def eligibleLeague (db : DB) (league_id : Nat) : Bool :=
  decide (¬ total_users db league_id = 0 ∧
    (0 < ready_users db league_id ∧ ready_users db league_id = total_users db league_id))

/-- One membership row under a simultaneous clear of the leagues selected
by `E` (generalizing the per-league clear of the advance loop). -/
def clearRowIf (E : Nat → Bool) (m : UserLeagueRow) : UserLeagueRow :=
  if E m.league_id then { m with ready_status := "" } else m

/-- One assignment row under a simultaneous week bump for this server's
leagues selected by `E`. -/
def bumpRowIf (server_id : Nat) (E : Nat → Bool) (sl : ServerLeagueRow) : ServerLeagueRow :=
  if sl.server_id == server_id && E sl.league_id then
    { sl with current_week := sl.current_week + 1 } else sl

/-- The one-shot effect of advancing every league selected by `E` on one
server: the direct characterization the `check_auto_advance` loop is proved
equal to. -/
def applyElig (db : DB) (server_id : Nat) (E : Nat → Bool) : DB :=
  { db with user_leagues := db.user_leagues.map (clearRowIf E),
            server_leagues := db.server_leagues.map (bumpRowIf server_id E) }

/-! ## `db.py` manual advance and week override -/

/-- `DatabaseManager.advance_league`: look the league up by (lowered) name;
when absent return `None` untouched; otherwise clear the league's statuses
globally, bump this server's week row, and return the display name together
with the re-fetched week (`none` when this server has no assignment row). -/
def advance_league (db : DB) (server_id : Nat) (league_name : String) :
    DB × Option (String × Option Int) :=
  match db.leagues.find? (fun l => l.name == pyLower league_name) with
  | none => (db, none)
  | some linfo =>
    let db' := { db with user_leagues := clearLeagueStatuses db.user_leagues linfo.league_id,
                         server_leagues := bumpWeek db.server_leagues server_id linfo.league_id }
    (db', some (linfo.display_name, getWeek db' server_id linfo.league_id))

/-- `DatabaseManager.set_league_week`: `fetchrow` of the join of `leagues`
and `server_leagues` on `l.name = $1 AND sl.server_id = $2`; on a hit,
`UPDATE server_leagues SET current_week = $3` for that key and return the
display name with the week read before the update. -/
def set_league_week (db : DB) (server_id : Nat) (league_name : String) (week : Int) :
    DB × Option (String × Int) :=
  match (db.leagues.flatMap (fun l =>
      if l.name == league_name then
        (db.server_leagues.filter
            (fun sl => sl.league_id == l.league_id && sl.server_id == server_id)).map
          (fun sl => (l, sl))
      else [])).head? with
  | none => (db, none)
  | some p =>
    ({ db with
        server_leagues := (updateWeek db.server_leagues server_id p.1.league_id (fun _ => week)) },
     some (p.1.display_name, p.2.current_week))

/-! ## `commands.py` entry points that create or guard state -/

/-- The next value of the `leagues.league_id` SERIAL sequence (model). -/
def nextLeagueId (db : DB) : Nat := (db.leagues.map (fun l => l.league_id)).foldl max 0 + 1

/-- The `/create_league` command: `INSERT INTO leagues (name, display_name)
VALUES (lower, upper)`, refused on a duplicate name. -/
def create_league (db : DB) (name display_name : String) : DB × Bool :=
  if db.leagues.any (fun l => l.name == pyLower name) then (db, false)
  else
    ({ db with leagues := db.leagues ++ [⟨nextLeagueId db, pyLower name, pyUpper display_name⟩] },
     true)

/-- The `/assign_league` command: look the league up by lowered name, then
`INSERT INTO server_leagues (server_id, league_id, current_week) VALUES
($1, $2, 1)`, refused on a duplicate (server, league) pair. -/
def assign_league (db : DB) (server_id : Nat) (league_name : String) : DB × Bool :=
  match db.leagues.find? (fun l => l.name == pyLower league_name) with
  | none => (db, false)
  | some l =>
    if db.server_leagues.any (fun sl => sl.server_id == server_id && sl.league_id == l.league_id)
    then (db, false)
    else ({ db with server_leagues := db.server_leagues ++ [⟨server_id, l.league_id, 1⟩] }, true)

/-- The `/set_week` command: `if week < 1: return` before any store call,
then `set_league_week` on the lowered league name. -/
def set_week_command (db : DB) (server_id : Nat) (league : String) (week : Int) : DB × Bool :=
  if week < 1 then (db, false)
  else
    let r := set_league_week db server_id (pyLower league) week
    (r.1, r.2.isSome)

/-! ## `table.py` rendering -/

/-- A row of the league query of `generate_table` (league columns plus the
selected `current_week`). -/
structure LeagueWeekRow where
  league_id : Nat
  name : String
  display_name : String
  current_week : Int
deriving DecidableEq

/-- `ORDER BY l.display_name`. -/
def sortLeagues (rows : List LeagueWeekRow) : List LeagueWeekRow :=
  rows.insertionSort (fun a b => strLe a.display_name b.display_name)

/-- `DatabaseManager.get_server_leagues`: for the main server, every league
assigned anywhere with `1 as current_week`; otherwise this server's leagues
with their stored weeks. -/
def get_server_leagues (db : DB) (server_id : Nat) (show_all_servers : Bool) :
    List LeagueWeekRow :=
  if show_all_servers then
    sortLeagues (((db.leagues.filter (fun l =>
        db.server_leagues.any (fun sl => sl.league_id == l.league_id))).map
      (fun l => ⟨l.league_id, l.name, l.display_name, 1⟩)).dedup)
  else
    sortLeagues (db.leagues.flatMap (fun l =>
      (db.server_leagues.filter
          (fun sl => sl.league_id == l.league_id && sl.server_id == server_id)).map
        (fun sl => ⟨l.league_id, l.name, l.display_name, sl.current_week⟩)))

/-- `ORDER BY u.username` on the selected usernames. -/
def sortStrings (l : List String) : List String := l.insertionSort (fun a b => strLe a b)

/-- `DatabaseManager.get_server_users`: for the main server, every user in
any league; otherwise the users having a membership in a league assigned to
this server. Only the `username` column is consumed by the renderer. -/
def get_server_users (db : DB) (server_id : Nat) (show_all_servers : Bool) : List String :=
  if show_all_servers then
    sortStrings ((db.users.filter (fun u =>
        db.user_leagues.any (fun m => m.user_id == u.user_id))).map (fun u => u.username)).dedup
  else
    sortStrings ((db.users.filter (fun u =>
        db.user_leagues.any (fun m => m.user_id == u.user_id &&
          db.server_leagues.any
            (fun sl => sl.league_id == m.league_id && sl.server_id == server_id)))).map
      (fun u => u.username)).dedup

/-- The per-league readiness record of `generate_table` (the float
percentage modelled as `ℚ`). -/
structure ReadinessInfo where
  total : Nat
  ready : Nat
  percentage : ℚ
  over_50 : Bool
deriving DecidableEq

/-- The readiness counting loop of `generate_table` for one league over the
visible user list: `total` members, `ready` members with status `'X'`,
`percentage = ready / total * 100` (0 when no members), `over_50 =
percentage > 50`. -/
def readinessFor (db : DB) (users : List String) (league_id : Nat) : ReadinessInfo :=
  let total := users.countP (fun u => (get_user_status db u league_id).isSome)
  let ready := users.countP (fun u => get_user_status db u league_id == some "X")
  let pct : ℚ := if 0 < total then (ready : ℚ) / (total : ℚ) * 100 else 0
  ⟨total, ready, pct, decide (50 < pct)⟩

/-- The `should_show` loop of `generate_table`: the user has a non-ready
membership in some over-50% league, or any membership in some under-50%
league. -/
def shouldShow (db : DB) (leagues : List LeagueWeekRow) (users : List String) (u : String) :
    Bool :=
  leagues.any (fun l =>
    if (readinessFor db users l.league_id).over_50 then
      match get_user_status db u l.league_id with
      | some st => !(st == "X")
      | none => false
    else (get_user_status db u l.league_id).isSome)

/-- `any_league_over_50` of `generate_table`. -/
def anyOver50 (db : DB) (leagues : List LeagueWeekRow) (users : List String) : Bool :=
  leagues.any (fun l => (readinessFor db users l.league_id).over_50)

/-- The `filtered_users` list of `generate_table`: when some league is over
50% ready only the `should_show` users survive, otherwise everyone. -/
def filtered_users (db : DB) (server_id : Nat) (show_all_servers : Bool) : List String :=
  if anyOver50 db (get_server_leagues db server_id show_all_servers)
      (get_server_users db server_id show_all_servers) then
    (get_server_users db server_id show_all_servers).filter
      (shouldShow db (get_server_leagues db server_id show_all_servers)
        (get_server_users db server_id show_all_servers))
  else get_server_users db server_id show_all_servers

/-- Round half to even on `ℚ`: the model of CPython's `f"{x:.0f}"` rounding
of the (exactly represented) percentage. -/
def rhe (q : ℚ) : ℤ :=
  if q - (⌊q⌋ : ℚ) < 1/2 then ⌊q⌋
  else if (1 : ℚ)/2 < q - (⌊q⌋ : ℚ) then ⌊q⌋ + 1
  else if ⌊q⌋ % 2 = 0 then ⌊q⌋ else ⌊q⌋ + 1

/-- Python `f"{q:.0f}"`. -/
def pyFormatF0 (q : ℚ) : String := toString (rhe q)

/-- The readiness cell text: `f"{percentage:.0f}%"` when the league has
members, the literal `"0%"` otherwise. -/
def readyDisplay (i : ReadinessInfo) : String :=
  if 0 < i.total then pyFormatF0 i.percentage ++ "%" else "0%"

/-- A horizontal border: the name column is 8 wide, each league column 4. -/
def borderLine (n : Nat) : String :=
  "+" ++ String.mk (List.replicate 8 '-') ++ "+" ++
    String.join (List.replicate n (String.mk (List.replicate 4 '-') ++ "+")) ++ "\n"

/-- The header row: `"Name"` then each league's display code
(`display_name[:3].upper()`), centred. -/
def headerRow (leagues : List LeagueWeekRow) : String :=
  "|" ++ pyCenter "Name" 8 ++ "|" ++
    String.join (leagues.map (fun l => pyCenter (pyUpper (strTake l.display_name 3)) 4 ++ "|")) ++
    "\n"

/-- The week row: `f"W{current_week}"` per league, centred. -/
def weekRow (leagues : List LeagueWeekRow) : String :=
  "|" ++ pyCenter "Week" 8 ++ "|" ++
    String.join (leagues.map (fun l => pyCenter ("W" ++ toString l.current_week) 4 ++ "|")) ++
    "\n"

/-- The readiness row: the per-league percentage cells. -/
def readyRow (db : DB) (users : List String) (leagues : List LeagueWeekRow) : String :=
  "|" ++ pyCenter "Ready" 8 ++ "|" ++
    String.join (leagues.map (fun l =>
      pyCenter (readyDisplay (readinessFor db users l.league_id)) 4 ++ "|")) ++ "\n"

/-- One status cell: no membership shows `'X'` on the main server and blank
elsewhere; an empty status is blank; anything else is `status[:3].upper()`. -/
def statusCell (db : DB) (show_all_servers : Bool) (u : String) (league_id : Nat) : String :=
  match get_user_status db u league_id with
  | none => if show_all_servers then "X" else " "
  | some st => if st == "" then " " else pyUpper (strTake st 3)

/-- One user row: `username.capitalize()[:6]` centred in the name column,
then the status cells. -/
def userRow (db : DB) (show_all_servers : Bool) (leagues : List LeagueWeekRow) (u : String) :
    String :=
  "|" ++ pyCenter (strTake (pyCapitalize u) 6) 8 ++ "|" ++
    String.join (leagues.map (fun l =>
      pyCenter (statusCell db show_all_servers u l.league_id) 4 ++ "|")) ++ "\n"

/-- The placeholder row rendered when the filtered user list is empty. -/
def allReadyRow (n : Nat) : String :=
  "|" ++ pyCenter "All Ready!" 8 ++ "|" ++
    String.join (List.replicate n (pyCenter " " 4 ++ "|")) ++ "\n"

/-- The user-row block of `generate_table`: the `All Ready!` placeholder
when the filtered list is empty, otherwise one row plus border per user. -/
def tableBody (db : DB) (server_id : Nat) (show_all_servers : Bool) : String :=
  if filtered_users db server_id show_all_servers = [] then
    allReadyRow (get_server_leagues db server_id show_all_servers).length
      ++ borderLine (get_server_leagues db server_id show_all_servers).length
  else
    String.join ((filtered_users db server_id show_all_servers).map
      (fun u => userRow db show_all_servers (get_server_leagues db server_id show_all_servers) u
        ++ borderLine (get_server_leagues db server_id show_all_servers).length))

/-- The footnote appended when some league is over 50% ready. -/
def tableFoot (db : DB) (server_id : Nat) (show_all_servers : Bool) : String :=
  if anyOver50 db (get_server_leagues db server_id show_all_servers)
      (get_server_users db server_id show_all_servers) then
    "\n*Leagues over 50% ready - showing only non-ready players"
  else ""

/-- `TableGenerator.generate_table`: the full fenced ASCII table, or the
`No leagues configured.` placeholder when the league list is empty. -/
def generate_table (db : DB) (server_id : Nat) (show_all_servers : Bool) : String :=
  if get_server_leagues db server_id show_all_servers = [] then
    "```" ++ "\nNo leagues configured.\n" ++ "```"
  else
    "```" ++ "\n" ++ borderLine (get_server_leagues db server_id show_all_servers).length
      ++ headerRow (get_server_leagues db server_id show_all_servers)
      ++ weekRow (get_server_leagues db server_id show_all_servers)
      ++ readyRow db (get_server_users db server_id show_all_servers)
          (get_server_leagues db server_id show_all_servers)
      ++ borderLine (get_server_leagues db server_id show_all_servers).length
      ++ tableBody db server_id show_all_servers
      ++ tableFoot db server_id show_all_servers ++ "```"

/-! ## The state machine over the command surface (for the week invariant) -/

/-- The empty database the schema starts from. -/
def initDB : DB := ⟨[], [], [], []⟩

/-- One state-changing command of the bot, as embedded above. -/
inductive Step : DB → DB → Prop where
  | createLeague (db : DB) (name display_name : String) :
      Step db (create_league db name display_name).1
  | assignLeague (db : DB) (server_id : Nat) (league_name : String) :
      Step db (assign_league db server_id league_name).1
  | updateStatus (db : DB) (username league_name status : String) :
      Step db (update_user_status db username league_name status).1
  | addUser (db : DB) (username : String) (league_names : List String) :
      Step db (add_user_to_server db username league_names).1
  | addMemberships (db : DB) (username : String) (league_names : List String) :
      Step db (add_existing_user_to_leagues db username league_names).1
  | removeMemberships (db : DB) (username : String) (league_names : List String) :
      Step db (remove_user_from_leagues db username league_names).1
  | deleteUser (db : DB) (username : String) :
      Step db (delete_user_completely db username).1
  | autoAdvance (db : DB) (server_id : Nat) :
      Step db (check_auto_advance db server_id).1
  | manualAdvance (db : DB) (server_id : Nat) (league_name : String) :
      Step db (advance_league db server_id league_name).1
  | setWeek (db : DB) (server_id : Nat) (league_name : String) (week : Int) :
      Step db (set_week_command db server_id league_name week).1

/-- The states reachable from the empty database through the command surface. -/
inductive Reachable : DB → Prop where
  | init : Reachable initDB
  | step {db db' : DB} : Reachable db → Step db db' → Reachable db'

/-- Every (server, league) assignment row carries a week of at least 1. -/
def weekInvariant (db : DB) : Prop := ∀ sl ∈ db.server_leagues, 1 ≤ sl.current_week

/-! ## Concrete states used by witnesses and counterexamples -/

/-- A state where league `rel` exists with one ready member but is assigned
to no server at all. -/
def dbUnassigned : DB :=
  ⟨[⟨1, "rel", "REL"⟩], [], [⟨1, "alice"⟩], [⟨1, 1, "X"⟩]⟩

/-- League `rel` on server 100 at week 1 with both members ready. -/
def dbAllReady : DB :=
  ⟨[⟨1, "rel", "REL"⟩], [⟨100, 1, 1⟩], [⟨1, "alice"⟩, ⟨2, "bob"⟩],
   [⟨1, 1, "X"⟩, ⟨2, 1, "X"⟩]⟩

/-- Two leagues on server 100: `aaa` (4 of 5 ready, over 50%) and `bbb`
(1 of 4 ready, under 50%); `erin` is only in `aaa` and fully ready. -/
def dbThreshold : DB :=
  ⟨[⟨1, "aaa", "AAA"⟩, ⟨2, "bbb", "BBB"⟩],
   [⟨100, 1, 3⟩, ⟨100, 2, 1⟩],
   [⟨1, "alice"⟩, ⟨2, "bob"⟩, ⟨3, "carol"⟩, ⟨4, "dave"⟩, ⟨5, "erin"⟩],
   [⟨1, 1, "X"⟩, ⟨2, 1, "X"⟩, ⟨3, 1, "X"⟩, ⟨4, 1, ""⟩, ⟨5, 1, "X"⟩,
    ⟨1, 2, "X"⟩, ⟨2, 2, ""⟩, ⟨3, 2, ""⟩, ⟨4, 2, ""⟩]⟩

/-! ## Generic list lemmas -/

theorem map_eq_self_of {α : Type} {f : α → α} {l : List α} (h : ∀ x ∈ l, f x = x) :
    l.map f = l := by
  induction l with
  | nil => rfl
  | cons a as ih =>
    simp only [List.map_cons]
    rw [h a (by simp), ih (fun x hx => h x (by simp [hx]))]

theorem find?_map_comm {α : Type} {f : α → α} {p : α → Bool} (l : List α)
    (h : ∀ x, p (f x) = p x) : (l.map f).find? p = (l.find? p).map f := by
  induction l with
  | nil => rfl
  | cons a as ih =>
    by_cases hpa : p a = true
    · rw [List.map_cons, List.find?_cons_of_pos _ ((h a).trans hpa),
        List.find?_cons_of_pos _ hpa, Option.map_some']
    · have hfa : p (f a) = false := by rw [h a]; simpa using hpa
      rw [List.map_cons, List.find?_cons_of_neg _ (by simp [hfa]),
        List.find?_cons_of_neg _ (by simpa using hpa), ih]

theorem pairwise_mem_eq {α κ : Type} (key : α → κ) {l : List α}
    (h : l.Pairwise (fun a b => key a ≠ key b)) {x y : α}
    (hx : x ∈ l) (hy : y ∈ l) (hxy : key x = key y) : x = y := by
  induction h with
  | nil => cases hx
  | @cons a as ha _ ih =>
    rcases List.mem_cons.mp hx with rfl | hx'
    · rcases List.mem_cons.mp hy with rfl | hy'
      · rfl
      · exact absurd hxy (ha y hy')
    · rcases List.mem_cons.mp hy with rfl | hy'
      · exact absurd hxy.symm (ha x hx')
      · exact ih hx' hy'

theorem countP_le_one {α : Type} {p : α → Bool} {l : List α}
    (h : l.Pairwise (fun a b => ¬(p a = true ∧ p b = true))) : l.countP p ≤ 1 := by
  induction h with
  | nil => simp
  | @cons a as ha _ ih =>
    rw [List.countP_cons]
    by_cases hpa : p a = true
    · have hz : as.countP p = 0 := List.countP_eq_zero.mpr (fun x hx hpx => ha x hx ⟨hpa, hpx⟩)
      simp [hz, hpa]
    · rw [if_neg hpa]
      omega

theorem countP_eq_one_iff {α : Type} {p : α → Bool} {l : List α}
    (h : l.Pairwise (fun a b => ¬(p a = true ∧ p b = true))) :
    l.countP p = 1 ↔ ∃ x ∈ l, p x = true := by
  constructor
  · intro h1
    exact List.countP_pos_iff.mp (by omega)
  · intro hex
    have hpos : 0 < l.countP p := List.countP_pos_iff.mpr hex
    have hle := countP_le_one h
    omega

/-! ## Key lemmas for the membership predicates -/

theorem membKey_key {db : DB} {username league_name : String} {m : UserLeagueRow}
    (h : membKey db username league_name m = true) :
    userIdOf db username = some m.user_id ∧ leagueIdOf db league_name = some m.league_id := by
  simpa only [membKey, Bool.and_eq_true, beq_iff_eq] using h

theorem membKey_pairwise {db : DB} (username league_name : String)
    (h : db.user_leagues.Pairwise
      (fun a b => (a.user_id, a.league_id) ≠ (b.user_id, b.league_id))) :
    db.user_leagues.Pairwise (fun a b =>
      ¬(membKey db username league_name a = true ∧ membKey db username league_name b = true)) := by
  refine h.imp ?_
  intro a b hne hab
  have ka := membKey_key hab.1
  have kb := membKey_key hab.2
  have h1 : a.user_id = b.user_id := Option.some.inj (ka.1.symm.trans kb.1)
  have h2 : a.league_id = b.league_id := Option.some.inj (ka.2.symm.trans kb.2)
  exact hne (by rw [h1, h2])

theorem statusPred_key {db : DB} {username : String} {league_id uid : Nat} {m : UserLeagueRow}
    (hWFn : db.users.Pairwise (fun a b => a.username ≠ b.username))
    (hu : userIdOf db username = some uid)
    (hm : statusPred db username league_id m = true) :
    m.user_id = uid ∧ m.league_id = league_id := by
  simp only [statusPred, Bool.and_eq_true, beq_iff_eq, List.any_eq_true] at hm
  obtain ⟨hl, u, hu', hk1, hk2⟩ := hm
  unfold userIdOf at hu
  cases hfind : db.users.find? (fun v => v.username == username) with
  | none => rw [hfind] at hu; cases hu
  | some u0 =>
    rw [hfind] at hu
    have hu0 : u0.user_id = uid := Option.some.inj (by simpa using hu)
    have hu0mem := List.mem_of_find?_eq_some hfind
    have hu0name : u0.username = username := by simpa using List.find?_some hfind
    have huu0 : u = u0 :=
      pairwise_mem_eq (fun v : UserRow => v.username) hWFn hu' hu0mem
        (hk2.trans hu0name.symm)
    exact ⟨by rw [← hk1, huu0, hu0], hl⟩

theorem get_user_status_mem {db : DB} {username : String} {league_id uid : Nat}
    {m : UserLeagueRow}
    (hWFn : db.users.Pairwise (fun a b => a.username ≠ b.username))
    (hWFm : db.user_leagues.Pairwise
      (fun a b => (a.user_id, a.league_id) ≠ (b.user_id, b.league_id)))
    (hu : userIdOf db username = some uid)
    (hm : m ∈ db.user_leagues) (hmu : m.user_id = uid) (hml : m.league_id = league_id) :
    get_user_status db username league_id = some m.ready_status := by
  have hpred : statusPred db username league_id m = true := by
    simp only [statusPred, Bool.and_eq_true, beq_iff_eq, List.any_eq_true]
    refine ⟨hml, ?_⟩
    unfold userIdOf at hu
    cases hfind : db.users.find? (fun v => v.username == username) with
    | none => rw [hfind] at hu; cases hu
    | some u0 =>
      rw [hfind] at hu
      refine ⟨u0, List.mem_of_find?_eq_some hfind, ?_, ?_⟩
      · rw [Option.some.inj (by simpa using hu : some u0.user_id = some uid), hmu]
      · simpa using List.find?_some hfind
  cases hfind2 : db.user_leagues.find? (statusPred db username league_id) with
  | none => exact absurd hpred (List.find?_eq_none.mp hfind2 m hm)
  | some m' =>
    have hm'mem := List.mem_of_find?_eq_some hfind2
    have hm'pred := List.find?_some hfind2
    have hkey := statusPred_key hWFn hu hm'pred
    have hmm : m' = m :=
      pairwise_mem_eq (fun r : UserLeagueRow => (r.user_id, r.league_id)) hWFm
        hm'mem hm (by
          show (m'.user_id, m'.league_id) = (m.user_id, m.league_id)
          rw [hkey.1, hkey.2, hmu, hml])
    unfold get_user_status
    rw [hfind2, hmm]
    rfl

/-! ## Claim C7 -/

/-- C7: `update_user_status` reports success and stores the status exactly
when the (user, league) membership row exists, reports failure leaving all
state unchanged otherwise, and re-setting the value already stored is a
reported success that changes nothing. -/
theorem update_user_status_spec (db : DB) (username league_name status : String)
    (hWF : db.WF) :
    ((update_user_status db username league_name status).2 = true ↔
      ∃ m ∈ db.user_leagues, membKey db username league_name m = true)
    ∧ (∀ m', m' ∈ (update_user_status db username league_name status).1.user_leagues →
        membKey db username league_name m' = true → m'.ready_status = status)
    ∧ ((update_user_status db username league_name status).2 = false →
        (update_user_status db username league_name status).1 = db)
    ∧ (∀ m ∈ db.user_leagues, membKey db username league_name m = true →
        m.ready_status = status →
        update_user_status db username league_name status = (db, true)) := by
  have hpw := membKey_pairwise username league_name hWF.2.2.2.2.2
  refine ⟨?_, ?_, ?_, ?_⟩
  · constructor
    · intro h
      have hc : db.user_leagues.countP (membKey db username league_name) = 1 := by
        simpa [update_user_status] using h
      exact (countP_eq_one_iff hpw).mp hc
    · intro hex
      have hc : db.user_leagues.countP (membKey db username league_name) = 1 :=
        (countP_eq_one_iff hpw).mpr hex
      simp [update_user_status, hc]
  · intro m' hm' hk
    simp only [update_user_status] at hm'
    rcases List.mem_map.mp hm' with ⟨m, _, hfm⟩
    by_cases hkm : membKey db username league_name m = true
    · rw [if_pos hkm] at hfm
      rw [← hfm]
    · rw [if_neg hkm] at hfm
      rw [← hfm] at hk
      exact absurd hk hkm
  · intro hfail
    have hcnt : db.user_leagues.countP (membKey db username league_name) ≠ 1 := by
      intro hc
      simp [update_user_status, hc] at hfail
    have hle := countP_le_one hpw
    have hz : db.user_leagues.countP (membKey db username league_name) = 0 := by omega
    have hmap : db.user_leagues.map (fun m =>
        if membKey db username league_name m then { m with ready_status := status } else m)
        = db.user_leagues :=
      map_eq_self_of (fun m hm => if_neg (by
        have := List.countP_eq_zero.mp hz m hm
        simpa using this))
    show ({ db with user_leagues := _ } : DB) = db
    rw [hmap]
  · intro m hm hk hstat
    have heq : ∀ x ∈ db.user_leagues, (if membKey db username league_name x then
        { x with ready_status := status } else x) = x := by
      intro x hx
      by_cases hkx : membKey db username league_name x = true
      · have kx := membKey_key hkx
        have km := membKey_key hk
        have hxy : (x.user_id, x.league_id) = (m.user_id, m.league_id) := by
          rw [Option.some.inj (kx.1.symm.trans km.1), Option.some.inj (kx.2.symm.trans km.2)]
        have hxm : x = m :=
          pairwise_mem_eq (fun r : UserLeagueRow => (r.user_id, r.league_id))
            hWF.2.2.2.2.2 hx hm hxy
        subst hxm
        rw [if_pos hkx, ← hstat]
      · exact if_neg hkx
    have hmap := map_eq_self_of heq
    have hcnt : db.user_leagues.countP (membKey db username league_name) = 1 :=
      (countP_eq_one_iff hpw).mpr ⟨m, hm, hk⟩
    unfold update_user_status
    rw [hmap, hcnt]
    rfl

/-- Witness for C7: re-marking `alice` ready in `rel` succeeds and leaves
the state untouched. -/
theorem update_user_status_spec_witness :
    update_user_status dbAllReady "alice" "rel" "X" = (dbAllReady, true) := by
  have h := update_user_status_spec dbAllReady "alice" "rel" "X"
    (by unfold DB.WF; decide)
  exact h.2.2.2 ⟨1, 1, "X"⟩ (by decide) (by decide) rfl

/-! ## Claim C6 -/

/-- C6: `get_user_status` returns `none` exactly when no (user, league)
membership row exists; after `remove_user_from_leagues` deletes the row the
status reads as absent; a member who is merely not ready reads as `some ""`. -/
theorem get_user_status_absence (db : DB) (username lname : String) (league_id : Nat)
    (hWF : db.WF) :
    (get_user_status db username league_id = none ↔
      ¬ ∃ m ∈ db.user_leagues, m.league_id = league_id ∧
        ∃ u ∈ db.users, u.user_id = m.user_id ∧ u.username = username)
    ∧ (leagueIdOf db lname = some league_id →
        get_user_status (remove_user_from_leagues db username [lname]).1 username league_id
          = none)
    ∧ (∀ m ∈ db.user_leagues, userIdOf db username = some m.user_id →
        m.league_id = league_id → m.ready_status = "" →
        get_user_status db username league_id = some "") := by
  refine ⟨?_, ?_, ?_⟩
  · constructor
    · intro h hex
      obtain ⟨m, hm, hml, u, hu, hk1, hk2⟩ := hex
      have hpred : statusPred db username league_id m = true := by
        simp only [statusPred, Bool.and_eq_true, beq_iff_eq, List.any_eq_true]
        exact ⟨hml, u, hu, hk1, hk2⟩
      unfold get_user_status at h
      rw [Option.map_eq_none'] at h
      exact absurd hpred (List.find?_eq_none.mp h m hm)
    · intro hnex
      unfold get_user_status
      rw [Option.map_eq_none', List.find?_eq_none]
      intro m hm hpred
      simp only [statusPred, Bool.and_eq_true, beq_iff_eq, List.any_eq_true] at hpred
      obtain ⟨hml, u, hu, hk1, hk2⟩ := hpred
      exact hnex ⟨m, hm, hml, u, hu, hk1, hk2⟩
  · intro hl
    cases huid : userIdOf db username with
    | none =>
      have hrm : (remove_user_from_leagues db username [lname]).1 = db := by
        unfold remove_user_from_leagues
        rw [huid]
      rw [hrm]
      unfold get_user_status
      rw [Option.map_eq_none', List.find?_eq_none]
      intro m _ hpred
      simp only [statusPred, Bool.and_eq_true, beq_iff_eq, List.any_eq_true] at hpred
      obtain ⟨_, u, hu, _, hk2⟩ := hpred
      unfold userIdOf at huid
      rw [Option.map_eq_none', List.find?_eq_none] at huid
      exact absurd (by simpa using hk2) (huid u hu)
    | some uid =>
      have hrm : (remove_user_from_leagues db username [lname]).1 =
          { db with user_leagues := (db.user_leagues.filter
            (fun m => !(m.user_id == uid && some m.league_id == leagueIdOf db lname))) } := by
        unfold remove_user_from_leagues
        rw [huid]
        rfl
      rw [hrm]
      unfold get_user_status
      rw [Option.map_eq_none', List.find?_eq_none]
      intro m hm hpred
      have hkey : m.user_id = uid ∧ m.league_id = league_id :=
        statusPred_key hWF.2.1 huid hpred
      have hflt := (List.mem_filter.mp hm).2
      rw [hl] at hflt
      simp only [Bool.not_eq_true', Bool.and_eq_false_iff, beq_eq_false_iff_ne] at hflt
      rcases hflt with h1 | h2
      · exact h1 hkey.1
      · exact h2 (by rw [hkey.2])
  · intro m hm hu hml hst
    have h := get_user_status_mem hWF.2.1 hWF.2.2.2.2.2 hu hm rfl hml
    rw [h, hst]

/-- Witness for C6: removing `alice` from `rel` makes the status read
absent in the concrete two-member state. -/
theorem get_user_status_absence_witness :
    get_user_status (remove_user_from_leagues dbAllReady "alice" ["rel"]).1 "alice" 1
      = none := by
  have h := get_user_status_absence dbAllReady "alice" "rel" 1 (by unfold DB.WF; decide)
  exact h.2.1 (by decide)

/-! ## Week update lemmas -/

theorem head?_mem {α : Type} {l : List α} {a : α} (h : l.head? = some a) : a ∈ l := by
  cases l with
  | nil => cases h
  | cons b t =>
    have hb : b = a := by simpa using h
    rw [← hb]
    exact List.mem_cons_self b t

theorem setWeekRow_server (s0 lid0 : Nat) (g : Int → Int) (sl : ServerLeagueRow) :
    ((if sl.server_id == s0 && sl.league_id == lid0 then
      { sl with current_week := g sl.current_week } else sl) : ServerLeagueRow).server_id
      = sl.server_id := by
  split <;> rfl

theorem setWeekRow_league (s0 lid0 : Nat) (g : Int → Int) (sl : ServerLeagueRow) :
    ((if sl.server_id == s0 && sl.league_id == lid0 then
      { sl with current_week := g sl.current_week } else sl) : ServerLeagueRow).league_id
      = sl.league_id := by
  split <;> rfl

theorem findWeek_updateWeek (rows : List ServerLeagueRow) (s0 lid0 s1 lid1 : Nat)
    (g : Int → Int) :
    findWeek (updateWeek rows s0 lid0 g) s1 lid1 =
      if s1 = s0 ∧ lid1 = lid0 then (findWeek rows s1 lid1).map g
      else findWeek rows s1 lid1 := by
  have hpres : ∀ x : ServerLeagueRow,
      (((if x.server_id == s0 && x.league_id == lid0 then
          { x with current_week := g x.current_week } else x) : ServerLeagueRow).server_id == s1
        && ((if x.server_id == s0 && x.league_id == lid0 then
          { x with current_week := g x.current_week } else x) : ServerLeagueRow).league_id == lid1)
        = (x.server_id == s1 && x.league_id == lid1) := by
    intro x
    rw [setWeekRow_server, setWeekRow_league]
  unfold findWeek updateWeek
  rw [find?_map_comm rows hpres]
  cases hf : rows.find? (fun sl => sl.server_id == s1 && sl.league_id == lid1) with
  | none => split <;> rfl
  | some x =>
    have hx := List.find?_some hf
    simp only [Bool.and_eq_true, beq_iff_eq] at hx
    simp only [Option.map_some']
    by_cases hcase : s1 = s0 ∧ lid1 = lid0
    · rw [if_pos hcase,
        if_pos (show (x.server_id == s0 && x.league_id == lid0) = true by
          simp [hx.1, hx.2, hcase.1, hcase.2])]
    · have hc : ¬ ((x.server_id == s0 && x.league_id == lid0) = true) := by
        intro hc0
        simp only [Bool.and_eq_true, beq_iff_eq] at hc0
        exact hcase ⟨hx.1 ▸ hc0.1, hx.2 ▸ hc0.2⟩
      rw [if_neg hcase, if_neg hc]

theorem clearLeagueStatuses_cleared {rows : List UserLeagueRow} {lid : Nat} :
    ∀ m ∈ clearLeagueStatuses rows lid, m.league_id = lid → m.ready_status = "" := by
  intro m hm hlid
  rcases List.mem_map.mp hm with ⟨x, _, hfx⟩
  by_cases hc : (x.league_id == lid) = true
  · rw [if_pos hc] at hfx
    rw [← hfx]
  · rw [if_neg hc] at hfx
    rw [← hfx] at hlid
    exact absurd (by simpa using hlid) hc

theorem clearLeagueStatuses_filter_ne (rows : List UserLeagueRow) (lid : Nat) :
    (clearLeagueStatuses rows lid).filter (fun m => !(m.league_id == lid))
      = rows.filter (fun m => !(m.league_id == lid)) := by
  unfold clearLeagueStatuses
  induction rows with
  | nil => rfl
  | cons a t ih =>
    by_cases hc : (a.league_id == lid) = true
    · rw [List.map_cons, if_pos hc,
        List.filter_cons_of_neg (by simp [hc]),
        List.filter_cons_of_neg (by simp [hc])]
      exact ih
    · have hc' : (a.league_id == lid) = false := by simpa using hc
      rw [List.map_cons, if_neg hc,
        List.filter_cons_of_pos (by simp [hc']),
        List.filter_cons_of_pos (by simp [hc']), ih]

/-! ## Claim C4 -/

theorem set_league_week_join_mem {db : DB} {s : Nat} {lname : String}
    {p : LeagueRow × ServerLeagueRow} :
    p ∈ db.leagues.flatMap (fun l =>
      if l.name == lname then
        (db.server_leagues.filter
            (fun sl => sl.league_id == l.league_id && sl.server_id == s)).map (fun sl => (l, sl))
      else []) ↔
    p.1 ∈ db.leagues ∧ p.1.name = lname ∧ p.2 ∈ db.server_leagues ∧
      p.2.league_id = p.1.league_id ∧ p.2.server_id = s := by
  rw [List.mem_flatMap]
  constructor
  · rintro ⟨l, hl, hp⟩
    by_cases hn : (l.name == lname) = true
    · rw [if_pos hn] at hp
      obtain ⟨sl, hsl, hpeq⟩ := List.mem_map.mp hp
      have hsl2 := List.mem_filter.mp hsl
      simp only [Bool.and_eq_true, beq_iff_eq] at hsl2
      rw [← hpeq]
      exact ⟨hl, by simpa using hn, hsl2.1, hsl2.2.1, hsl2.2.2⟩
    · rw [if_neg hn] at hp
      cases hp
  · rintro ⟨h1, h2, h3, h4, h5⟩
    refine ⟨p.1, h1, ?_⟩
    rw [if_pos (by simpa using h2)]
    exact List.mem_map.mpr ⟨p.2, List.mem_filter.mpr ⟨h3, by simp [h4, h5]⟩, rfl⟩

/-- C4: `set_league_week` succeeds exactly when the (server, league)
assignment exists; on success it returns the previously stored week, stores
the new week, and changes nothing else (other assignments, memberships,
users and leagues untouched). -/
theorem set_league_week_spec (db : DB) (s : Nat) (lname : String) (w : Int)
    (hWF : db.WF) (hw : 1 ≤ w) :
    ((set_league_week db s lname w).2 ≠ none ↔
      ∃ l ∈ db.leagues, l.name = lname ∧
        ∃ sl ∈ db.server_leagues, sl.server_id = s ∧ sl.league_id = l.league_id)
    ∧ (∀ l ∈ db.leagues, l.name = lname → ∀ sl ∈ db.server_leagues,
        sl.server_id = s → sl.league_id = l.league_id →
        (set_league_week db s lname w).2 = some (l.display_name, sl.current_week) ∧
        getWeek (set_league_week db s lname w).1 s l.league_id = some w ∧
        (∀ s' lid', ¬(s' = s ∧ lid' = l.league_id) →
          getWeek (set_league_week db s lname w).1 s' lid' = getWeek db s' lid'))
    ∧ (set_league_week db s lname w).1.user_leagues = db.user_leagues
    ∧ (set_league_week db s lname w).1.users = db.users
    ∧ (set_league_week db s lname w).1.leagues = db.leagues
    ∧ ((set_league_week db s lname w).2 = none → (set_league_week db s lname w).1 = db) := by
  cases hhead : (db.leagues.flatMap (fun l =>
      if l.name == lname then
        (db.server_leagues.filter
            (fun sl => sl.league_id == l.league_id && sl.server_id == s)).map (fun sl => (l, sl))
      else [])).head? with
  | none =>
    have hempty : ∀ q : LeagueRow × ServerLeagueRow,
        ¬ (q.1 ∈ db.leagues ∧ q.1.name = lname ∧ q.2 ∈ db.server_leagues ∧
          q.2.league_id = q.1.league_id ∧ q.2.server_id = s) := by
      intro q hq
      have : q ∈ _ := set_league_week_join_mem.mpr hq
      rw [List.head?_eq_none_iff.mp hhead] at this
      cases this
    have hr : set_league_week db s lname w = (db, none) := by
      unfold set_league_week
      rw [hhead]
    refine ⟨?_, ?_, ?_, ?_, ?_, ?_⟩
    · rw [hr]
      constructor
      · intro h
        exact absurd rfl h
      · rintro ⟨l, hl, hn, sl, hsl, hs, hlid⟩
        exact absurd ⟨hl, hn, hsl, hlid, hs⟩ (hempty (l, sl))
    · intro l hl hn sl hsl hs hlid
      exact absurd ⟨hl, hn, hsl, hlid, hs⟩ (hempty (l, sl))
    · rw [hr]
    · rw [hr]
    · rw [hr]
    · intro _
      rw [hr]
  | some p =>
    have hpmem : p ∈ _ := head?_mem hhead
    have hpc := set_league_week_join_mem.mp hpmem
    have hr : set_league_week db s lname w =
        ({ db with
            server_leagues := (updateWeek db.server_leagues s p.1.league_id (fun _ => w)) },
         some (p.1.display_name, p.2.current_week)) := by
      unfold set_league_week
      rw [hhead]
    refine ⟨?_, ?_, ?_, ?_, ?_, ?_⟩
    · rw [hr]
      constructor
      · intro _
        exact ⟨p.1, hpc.1, hpc.2.1, p.2, hpc.2.2.1, hpc.2.2.2.2, hpc.2.2.2.1⟩
      · intro _
        simp
    · intro l hl hn sl hsl hs hlid
      have hl1 : p.1 = l :=
        pairwise_mem_eq (fun x : LeagueRow => x.name) hWF.2.2.2.1 hpc.1 hl
          (hpc.2.1.trans hn.symm)
      have hsl1 : p.2 = sl :=
        pairwise_mem_eq (fun x : ServerLeagueRow => (x.server_id, x.league_id))
          hWF.2.2.2.2.1 hpc.2.2.1 hsl (by
            show (p.2.server_id, p.2.league_id) = (sl.server_id, sl.league_id)
            rw [hpc.2.2.2.2, hpc.2.2.2.1, hl1, hs, hlid])
      refine ⟨?_, ?_, ?_⟩
      · rw [hr, hl1, hsl1]
      · rw [hr]
        show findWeek (updateWeek db.server_leagues s p.1.league_id (fun _ => w)) s l.league_id
          = some w
        rw [hl1, findWeek_updateWeek, if_pos ⟨rfl, rfl⟩]
        have hsome : findWeek db.server_leagues s l.league_id = some sl.current_week := by
          unfold findWeek
          cases hf : db.server_leagues.find?
              (fun x => x.server_id == s && x.league_id == l.league_id) with
          | none =>
            exact absurd (by simp [hs, hlid]) (List.find?_eq_none.mp hf sl hsl)
          | some x =>
            have hxp := List.find?_some hf
            simp only [Bool.and_eq_true, beq_iff_eq] at hxp
            have : x = sl :=
              pairwise_mem_eq (fun y : ServerLeagueRow => (y.server_id, y.league_id))
                hWF.2.2.2.2.1 (List.mem_of_find?_eq_some hf) hsl (by
                  show (x.server_id, x.league_id) = (sl.server_id, sl.league_id)
                  rw [hxp.1, hxp.2, hs, hlid])
            rw [this]
            rfl
        rw [hsome]
        rfl
      · intro s' lid' hne
        rw [hr]
        show findWeek (updateWeek db.server_leagues s p.1.league_id (fun _ => w)) s' lid'
          = findWeek db.server_leagues s' lid'
        rw [hl1, findWeek_updateWeek, if_neg hne]
    · rw [hr]
    · rw [hr]
    · rw [hr]
    · intro hnone
      rw [hr] at hnone
      cases hnone

/-- Witness for C4: overriding `rel` on server 100 to week 5 returns the
old week 1, stores 5, and leaves the memberships untouched. -/
theorem set_league_week_spec_witness :
    (set_league_week dbAllReady 100 "rel" 5).2 = some ("REL", 1) ∧
    getWeek (set_league_week dbAllReady 100 "rel" 5).1 100 1 = some 5 ∧
    (set_league_week dbAllReady 100 "rel" 5).1.user_leagues = dbAllReady.user_leagues := by
  have h := set_league_week_spec dbAllReady 100 "rel" 5 (by unfold DB.WF; decide) (by decide)
  refine ⟨?_, ?_, h.2.2.1⟩
  · exact (h.2.1 ⟨1, "rel", "REL"⟩ (by decide) rfl ⟨100, 1, 1⟩ (by decide) rfl rfl).1
  · exact (h.2.1 ⟨1, "rel", "REL"⟩ (by decide) rfl ⟨100, 1, 1⟩ (by decide) rfl rfl).2.1

/-! ## Claim C2 -/

/-- Counterexample for C2 as frozen: in `dbUnassigned` the league `rel`
exists but is assigned to no server; `advance_league` still clears alice's
global ready status (state changed) while reporting a `none` new week. -/
theorem advance_league_not_atomic_cex :
    dbUnassigned.server_leagues = []
    ∧ get_user_status dbUnassigned "alice" 1 = some "X"
    ∧ (advance_league dbUnassigned 100 "rel").2 = some ("REL", none)
    ∧ get_user_status (advance_league dbUnassigned 100 "rel").1 "alice" 1 = some "" := by
  refine ⟨rfl, ?_, ?_, ?_⟩ <;> decide

/-- C2 amended: `advance_league` errors (returning `none`, with no state
change) only when the league name does not exist; when the league exists it
always clears every membership status for that league globally, increments
exactly the (requesting server, league) assignment week when present, and
returns the new week, which is absent when the server has no assignment. -/
theorem advance_league_spec (db : DB) (s : Nat) (lname : String) (hWF : db.WF) :
    (db.leagues.find? (fun l => l.name == pyLower lname) = none →
      advance_league db s lname = (db, none))
    ∧ (∀ l ∈ db.leagues, l.name = pyLower lname →
        (∀ m ∈ (advance_league db s lname).1.user_leagues,
            m.league_id = l.league_id → m.ready_status = "")
        ∧ ((advance_league db s lname).1.user_leagues.filter
              (fun m => !(m.league_id == l.league_id))
            = db.user_leagues.filter (fun m => !(m.league_id == l.league_id)))
        ∧ getWeek (advance_league db s lname).1 s l.league_id
            = (getWeek db s l.league_id).map (fun x => x + 1)
        ∧ (∀ s' lid', ¬(s' = s ∧ lid' = l.league_id) →
            getWeek (advance_league db s lname).1 s' lid' = getWeek db s' lid')
        ∧ (advance_league db s lname).2
            = some (l.display_name, getWeek (advance_league db s lname).1 s l.league_id))
    ∧ (advance_league db s lname).1.users = db.users
    ∧ (advance_league db s lname).1.leagues = db.leagues := by
  cases hfind : db.leagues.find? (fun l => l.name == pyLower lname) with
  | none =>
    have hr : advance_league db s lname = (db, none) := by
      unfold advance_league
      rw [hfind]
    refine ⟨fun _ => hr, ?_, by rw [hr], by rw [hr]⟩
    intro l hl hn
    exact absurd (by simpa using hn) (List.find?_eq_none.mp hfind l hl)
  | some linfo =>
    have hlmem := List.mem_of_find?_eq_some hfind
    have hlname : linfo.name = pyLower lname := by simpa using List.find?_some hfind
    have hr : advance_league db s lname =
        ({ db with user_leagues := clearLeagueStatuses db.user_leagues linfo.league_id,
                   server_leagues := bumpWeek db.server_leagues s linfo.league_id },
         some (linfo.display_name,
           getWeek { db with
               user_leagues := clearLeagueStatuses db.user_leagues linfo.league_id,
               server_leagues := bumpWeek db.server_leagues s linfo.league_id }
             s linfo.league_id)) := by
      unfold advance_league
      rw [hfind]
    refine ⟨?_, ?_, by rw [hr], by rw [hr]⟩
    · intro h
      exact absurd h (Option.some_ne_none _)
    · intro l hl hn
      have hl1 : linfo = l :=
        pairwise_mem_eq (fun x : LeagueRow => x.name) hWF.2.2.2.1 hlmem hl
          (hlname.trans hn.symm)
      subst hl1
      refine ⟨?_, ?_, ?_, ?_, ?_⟩
      · rw [hr]
        exact clearLeagueStatuses_cleared
      · rw [hr]
        exact clearLeagueStatuses_filter_ne db.user_leagues linfo.league_id
      · rw [hr]
        show findWeek (bumpWeek db.server_leagues s linfo.league_id) s linfo.league_id = _
        unfold bumpWeek
        rw [findWeek_updateWeek, if_pos ⟨rfl, rfl⟩]
        rfl
      · intro s' lid' hne
        rw [hr]
        show findWeek (bumpWeek db.server_leagues s linfo.league_id) s' lid' = _
        unfold bumpWeek
        rw [findWeek_updateWeek, if_neg hne]
        rfl
      · rw [hr]

/-- Witness for the amended C2: advancing `rel` manually in the concrete
all-ready state clears both statuses and moves week 1 to week 2. -/
theorem advance_league_spec_witness :
    (∀ m ∈ (advance_league dbAllReady 100 "rel").1.user_leagues,
      m.league_id = 1 → m.ready_status = "")
    ∧ getWeek (advance_league dbAllReady 100 "rel").1 100 1 = some 2 := by
  have h := advance_league_spec dbAllReady 100 "rel" (by unfold DB.WF; decide)
  have h2 := h.2.1 ⟨1, "rel", "REL"⟩ (by decide) (by decide)
  refine ⟨h2.1, ?_⟩
  rw [h2.2.2.1]
  decide

/-! ## Claim C5: membership upsert lemmas -/

theorem upsert_mem (rows : List UserLeagueRow) (uid lid : Nat) :
    ∃ m ∈ upsertMembership rows uid lid,
      m.user_id = uid ∧ m.league_id = lid ∧ m.ready_status = "" := by
  unfold upsertMembership
  by_cases hany : rows.any (mKey uid lid) = true
  · rw [if_pos hany]
    obtain ⟨x, hx, hkx⟩ := List.any_eq_true.mp hany
    simp only [mKey, Bool.and_eq_true, beq_iff_eq] at hkx
    refine ⟨{ x with ready_status := "" }, List.mem_map.mpr ⟨x, hx, ?_⟩, hkx.1, hkx.2, rfl⟩
    rw [if_pos (show mKey uid lid x = true by simp [mKey, hkx.1, hkx.2])]
  · rw [if_neg hany]
    exact ⟨⟨uid, lid, ""⟩, List.mem_append.mpr (Or.inr (by simp)), rfl, rfl, rfl⟩

theorem upsert_key_status (rows : List UserLeagueRow) (uid lid : Nat) :
    ∀ m ∈ upsertMembership rows uid lid, m.user_id = uid → m.league_id = lid →
      m.ready_status = "" := by
  unfold upsertMembership
  intro m hm h1 h2
  by_cases hany : rows.any (mKey uid lid) = true
  · rw [if_pos hany] at hm
    obtain ⟨x, hx, hfx⟩ := List.mem_map.mp hm
    by_cases hkx : mKey uid lid x = true
    · rw [if_pos hkx] at hfx
      rw [← hfx]
    · rw [if_neg hkx] at hfx
      rw [← hfx] at h1 h2
      exact absurd (show mKey uid lid x = true by simp [mKey, h1, h2]) hkx
  · rw [if_neg hany] at hm
    rcases List.mem_append.mp hm with hmem | hmem
    · exact absurd
        (List.any_eq_true.mpr ⟨m, hmem, by simp [mKey, h1, h2]⟩) hany
    · have hm2 : m = ⟨uid, lid, ""⟩ := by simpa using hmem
      rw [hm2]

theorem upsertRow_key (uid lid : Nat) (m : UserLeagueRow) :
    (((if mKey uid lid m then { m with ready_status := "" } else m) : UserLeagueRow).user_id,
     ((if mKey uid lid m then { m with ready_status := "" } else m) : UserLeagueRow).league_id)
    = (m.user_id, m.league_id) := by
  split <;> rfl

theorem upsert_pairwise {rows : List UserLeagueRow} (uid lid : Nat)
    (h : rows.Pairwise (fun a b => (a.user_id, a.league_id) ≠ (b.user_id, b.league_id))) :
    (upsertMembership rows uid lid).Pairwise
      (fun a b => (a.user_id, a.league_id) ≠ (b.user_id, b.league_id)) := by
  unfold upsertMembership
  by_cases hany : rows.any (mKey uid lid) = true
  · rw [if_pos hany, List.pairwise_map]
    refine h.imp ?_
    intro a b hne hkey
    rw [upsertRow_key, upsertRow_key] at hkey
    exact hne hkey
  · rw [if_neg hany, List.pairwise_append]
    refine ⟨h, List.pairwise_singleton _ _, ?_⟩
    intro a ha b hb
    have hb2 : b = ⟨uid, lid, ""⟩ := by simpa using hb
    rw [hb2]
    intro hkey
    have hk2 := Prod.ext_iff.mp hkey
    refine absurd (List.any_eq_true.mpr ⟨a, ha, ?_⟩) hany
    simp only [mKey, Bool.and_eq_true, beq_iff_eq]
    exact ⟨hk2.1, hk2.2⟩

theorem map_keys_pairwise {rows : List UserLeagueRow} {f : UserLeagueRow → UserLeagueRow}
    (hf : ∀ x, (f x).user_id = x.user_id ∧ (f x).league_id = x.league_id)
    (h : rows.Pairwise (fun a b => (a.user_id, a.league_id) ≠ (b.user_id, b.league_id))) :
    (rows.map f).Pairwise
      (fun a b => (a.user_id, a.league_id) ≠ (b.user_id, b.league_id)) := by
  rw [List.pairwise_map]
  refine h.imp ?_
  intro a b hne hkey
  apply hne
  have h1 : ((f a).user_id, (f a).league_id) = ((f b).user_id, (f b).league_id) := hkey
  rw [(hf a).1, (hf a).2, (hf b).1, (hf b).2] at h1
  exact h1

theorem setStatusRow_keys (db : DB) (username lname status : String) (x : UserLeagueRow) :
    (((if membKey db username lname x then { x with ready_status := status } else x)
      : UserLeagueRow).user_id = x.user_id) ∧
    (((if membKey db username lname x then { x with ready_status := status } else x)
      : UserLeagueRow).league_id = x.league_id) := by
  constructor <;> (split <;> rfl)

/-- C5: the membership upsert always resets the (user, league) status to
the empty string: the round trip add, set ready, add again ends with stored
status `""` (the prior status is lost), and a fresh add creates the row
with status `""`. -/
theorem add_membership_reset (db : DB) (username lname : String) (uid lid : Nat)
    (hWF : db.WF) (hu : userIdOf db username = some uid)
    (hl : leagueIdOf db lname = some lid) :
    get_user_status (add_existing_user_to_leagues
        ((update_user_status (add_existing_user_to_leagues db username [lname]).1
          username lname "X").1) username [lname]).1 username lid = some ""
    ∧ ((¬ ∃ m ∈ db.user_leagues, m.user_id = uid ∧ m.league_id = lid) →
        get_user_status (add_existing_user_to_leagues db username [lname]).1 username lid
          = some "") := by
  obtain ⟨hWFa, hWFb, hWFc, hWFd, hWFe, hWFf⟩ := hWF
  have hadd1 : (add_existing_user_to_leagues db username [lname]).1
      = { db with user_leagues := upsertMembership db.user_leagues uid lid } := by
    unfold add_existing_user_to_leagues
    simp only [hu, List.foldl_cons, List.foldl_nil, hl]
  have hupd : (update_user_status
        { db with user_leagues := upsertMembership db.user_leagues uid lid }
        username lname "X").1
      = { db with user_leagues := ((upsertMembership db.user_leagues uid lid).map
          (fun m => if membKey
              { db with user_leagues := upsertMembership db.user_leagues uid lid }
              username lname m
            then { m with ready_status := "X" } else m)) } := rfl
  have hadd2 : (add_existing_user_to_leagues
        { db with user_leagues := ((upsertMembership db.user_leagues uid lid).map
          (fun m => if membKey
              { db with user_leagues := upsertMembership db.user_leagues uid lid }
              username lname m
            then { m with ready_status := "X" } else m)) } username [lname]).1
      = { db with user_leagues := (upsertMembership
          ((upsertMembership db.user_leagues uid lid).map
            (fun m => if membKey
                { db with user_leagues := upsertMembership db.user_leagues uid lid }
                username lname m
              then { m with ready_status := "X" } else m)) uid lid) } := by
    unfold add_existing_user_to_leagues
    have hu2 : userIdOf { db with user_leagues := ((upsertMembership db.user_leagues uid lid).map
        (fun m => if membKey
            { db with user_leagues := upsertMembership db.user_leagues uid lid }
            username lname m
          then { m with ready_status := "X" } else m)) } username = some uid := hu
    have hl2 : leagueIdOf { db with user_leagues := ((upsertMembership db.user_leagues uid lid).map
        (fun m => if membKey
            { db with user_leagues := upsertMembership db.user_leagues uid lid }
            username lname m
          then { m with ready_status := "X" } else m)) } lname = some lid := hl
    simp only [hu2, List.foldl_cons, List.foldl_nil, hl2]
  constructor
  · rw [hadd1, hupd, hadd2]
    have hpw3 : (upsertMembership
        ((upsertMembership db.user_leagues uid lid).map
          (fun m => if membKey
              { db with user_leagues := upsertMembership db.user_leagues uid lid }
              username lname m
            then { m with ready_status := "X" } else m)) uid lid).Pairwise
        (fun a b => (a.user_id, a.league_id) ≠ (b.user_id, b.league_id)) :=
      upsert_pairwise uid lid
        (map_keys_pairwise
          (setStatusRow_keys
            { db with user_leagues := upsertMembership db.user_leagues uid lid }
            username lname "X")
          (upsert_pairwise uid lid hWFf))
    obtain ⟨m3, hm3, hk1, hk2, hk3⟩ := upsert_mem
      ((upsertMembership db.user_leagues uid lid).map
        (fun m => if membKey
            { db with user_leagues := upsertMembership db.user_leagues uid lid }
            username lname m
          then { m with ready_status := "X" } else m)) uid lid
    rw [← hk3]
    exact get_user_status_mem hWFb hpw3 hu hm3 hk1 hk2
  · intro _
    rw [hadd1]
    obtain ⟨m1, hm1, hj1, hj2, hj3⟩ := upsert_mem db.user_leagues uid lid
    rw [← hj3]
    exact get_user_status_mem hWFb (upsert_pairwise uid lid hWFf) hu hm1 hj1 hj2

/-- Witness for C5: the concrete round trip over the two-member state ends
with alice's status stored as the empty string. -/
theorem add_membership_reset_witness :
    get_user_status (add_existing_user_to_leagues
        ((update_user_status (add_existing_user_to_leagues dbAllReady "alice" ["rel"]).1
          "alice" "rel" "X").1) "alice" ["rel"]).1 "alice" 1 = some "" := by
  have h := add_membership_reset dbAllReady "alice" "rel" 1 1 (by unfold DB.WF; decide)
    (by decide) (by decide)
  exact h.1

/-! ## Claim C8: readiness numerics -/

theorem rhe_close (q : ℚ) : |q - (rhe q : ℚ)| ≤ 1/2 := by
  unfold rhe
  have h0 : (0:ℚ) ≤ q - ⌊q⌋ := by
    have := Int.floor_le q
    linarith
  have h1 : q - (⌊q⌋ : ℚ) < 1 := by
    have := Int.lt_floor_add_one q
    linarith
  split
  · rw [abs_le]
    constructor <;> push_cast <;> linarith
  · split
    · rw [abs_le]
      push_cast
      constructor <;> linarith
    · split <;> (rw [abs_le]; push_cast; constructor <;> linarith)

theorem ready_le_total (db : DB) (users : List String) (league_id : Nat) :
    users.countP (fun u => get_user_status db u league_id == some "X")
      ≤ users.countP (fun u => (get_user_status db u league_id).isSome) := by
  apply List.countP_mono_left
  intro u _ h
  have hx : get_user_status db u league_id = some "X" := by simpa using h
  rw [hx]
  rfl

theorem readinessFor_total (db : DB) (users : List String) (league_id : Nat) :
    (readinessFor db users league_id).total
      = users.countP (fun u => (get_user_status db u league_id).isSome) := rfl

theorem readinessFor_ready (db : DB) (users : List String) (league_id : Nat) :
    (readinessFor db users league_id).ready
      = users.countP (fun u => get_user_status db u league_id == some "X") := rfl

theorem readinessFor_pct (db : DB) (users : List String) (league_id : Nat) :
    (readinessFor db users league_id).percentage
      = if 0 < (readinessFor db users league_id).total
        then ((readinessFor db users league_id).ready : ℚ)
          / ((readinessFor db users league_id).total : ℚ) * 100
        else 0 := rfl

theorem readinessFor_over (db : DB) (users : List String) (league_id : Nat) :
    (readinessFor db users league_id).over_50
      = decide ((50 : ℚ) < (readinessFor db users league_id).percentage) := rfl

/-- The 50% display threshold as a kernel-decidable count comparison. -/
theorem over_50_iff (db : DB) (users : List String) (league_id : Nat) :
    (readinessFor db users league_id).over_50
      = decide (users.countP (fun u => (get_user_status db u league_id).isSome)
          < 2 * users.countP (fun u => get_user_status db u league_id == some "X")) := by
  have hle := ready_le_total db users league_id
  rw [readinessFor_over, decide_eq_decide, readinessFor_pct, readinessFor_total,
    readinessFor_ready]
  constructor
  · intro h
    by_cases ht : 0 < users.countP (fun u => (get_user_status db u league_id).isSome)
    · rw [if_pos ht] at h
      rw [div_mul_eq_mul_div] at h
      have h2 := (lt_div_iff₀ (by exact_mod_cast ht)).mp h
      have h3 : 50 * users.countP (fun u => (get_user_status db u league_id).isSome)
          < users.countP (fun u => get_user_status db u league_id == some "X") * 100 := by
        exact_mod_cast h2
      omega
    · rw [if_neg ht] at h
      norm_num at h
  · intro h
    have ht : 0 < users.countP (fun u => (get_user_status db u league_id).isSome) := by omega
    rw [if_pos ht, div_mul_eq_mul_div]
    refine (lt_div_iff₀ (by exact_mod_cast ht)).mpr ?_
    have h2 : 50 * users.countP (fun u => (get_user_status db u league_id).isSome)
        < users.countP (fun u => get_user_status db u league_id == some "X") * 100 := by
      omega
    exact_mod_cast h2

/-- C8: readiness percentage is `ready/total*100` (0 when `total = 0`),
`over_50` holds exactly when the percentage strictly exceeds 50, and the
readiness cell shows the percentage rounded to a nearest integer followed
by `%`, with `0%` when the league has no visible members. -/
theorem readiness_numbers (db : DB) (users : List String) (league_id : Nat) :
    ((readinessFor db users league_id).total
        = users.countP (fun u => (get_user_status db u league_id).isSome))
    ∧ ((readinessFor db users league_id).ready
        = users.countP (fun u => get_user_status db u league_id == some "X"))
    ∧ ((readinessFor db users league_id).percentage
        = if (readinessFor db users league_id).total = 0 then 0
          else ((readinessFor db users league_id).ready : ℚ)
            / ((readinessFor db users league_id).total : ℚ) * 100)
    ∧ ((readinessFor db users league_id).over_50 = true ↔
        (50 : ℚ) < (readinessFor db users league_id).percentage)
    ∧ (readyDisplay (readinessFor db users league_id)
        = if (readinessFor db users league_id).total = 0 then "0%"
          else toString (rhe (readinessFor db users league_id).percentage) ++ "%")
    ∧ |(readinessFor db users league_id).percentage
        - (rhe (readinessFor db users league_id).percentage : ℚ)| ≤ 1/2 := by
  refine ⟨rfl, rfl, ?_, ?_, ?_, rhe_close _⟩
  · rw [readinessFor_pct]
    by_cases hz : (readinessFor db users league_id).total = 0
    · rw [hz, if_neg (lt_irrefl 0), if_pos rfl]
    · rw [if_pos (Nat.pos_of_ne_zero hz), if_neg hz]
  · rw [readinessFor_over]
    exact decide_eq_true_iff
  · unfold readyDisplay pyFormatF0
    by_cases hz : (readinessFor db users league_id).total = 0
    · rw [hz, if_neg (lt_irrefl 0), if_pos rfl]
    · rw [if_pos (Nat.pos_of_ne_zero hz), if_neg hz]

/-! ## Claim C10: aggregator weeks -/

theorem mem_sortLeagues {rows : List LeagueWeekRow} {x : LeagueWeekRow} :
    x ∈ sortLeagues rows ↔ x ∈ rows := by
  unfold sortLeagues
  exact (List.perm_insertionSort _ rows).mem_iff

theorem mem_sortStrings {rows : List String} {x : String} :
    x ∈ sortStrings rows ↔ x ∈ rows := by
  unfold sortStrings
  exact (List.perm_insertionSort _ rows).mem_iff

theorem weekRow_const {leagues : List LeagueWeekRow}
    (h : ∀ l ∈ leagues, l.current_week = 1) :
    leagues.map (fun l => pyCenter ("W" ++ toString l.current_week) 4 ++ "|")
      = List.replicate leagues.length (pyCenter "W1" 4 ++ "|") := by
  induction leagues with
  | nil => rfl
  | cons a t ih =>
    rw [List.map_cons, List.length_cons, List.replicate_succ,
      h a (by simp), ih (fun l hl => h l (by simp [hl]))]
    have hW : ("W" ++ toString (1 : Int)) = "W1" := rfl
    rw [hW]

/-- C10: the aggregator (main) league query returns a constant week of 1,
so the week header row renders `W1` for every league regardless of the
stored counters; only the non-aggregator query carries the stored
per-(server, league) weeks. -/
theorem aggregator_week_is_one (db : DB) (server_id : Nat) :
    (∀ l ∈ get_server_leagues db server_id true, l.current_week = 1)
    ∧ weekRow (get_server_leagues db server_id true)
        = "|" ++ pyCenter "Week" 8 ++ "|" ++
          String.join (List.replicate (get_server_leagues db server_id true).length
            (pyCenter "W1" 4 ++ "|")) ++ "\n"
    ∧ (∀ l ∈ get_server_leagues db server_id false,
        ∃ sl ∈ db.server_leagues, sl.server_id = server_id ∧ sl.league_id = l.league_id ∧
          l.current_week = sl.current_week) := by
  have hconst : ∀ l ∈ get_server_leagues db server_id true, l.current_week = 1 := by
    intro l hl
    unfold get_server_leagues at hl
    rw [if_pos rfl] at hl
    rw [mem_sortLeagues, List.mem_dedup] at hl
    obtain ⟨l0, _, hfl⟩ := List.mem_map.mp hl
    rw [← hfl]
  refine ⟨hconst, ?_, ?_⟩
  · unfold weekRow
    rw [weekRow_const hconst]
  · intro l hl
    unfold get_server_leagues at hl
    rw [if_neg (by simp)] at hl
    rw [mem_sortLeagues, List.mem_flatMap] at hl
    obtain ⟨l0, _, hmem⟩ := hl
    obtain ⟨sl, hsl, hfl⟩ := List.mem_map.mp hmem
    have hslf := List.mem_filter.mp hsl
    simp only [Bool.and_eq_true, beq_iff_eq] at hslf
    refine ⟨sl, hslf.1, hslf.2.2, ?_, ?_⟩
    · rw [← hfl]
      exact hslf.2.1
    · rw [← hfl]

/-! ## Claim C3: row filtering -/

theorem shouldShow_iff (db : DB) (leagues : List LeagueWeekRow) (users : List String)
    (u : String) :
    shouldShow db leagues users u = true ↔
      ∃ l ∈ leagues,
        ((readinessFor db users l.league_id).over_50 = true ∧
          ∃ st, get_user_status db u l.league_id = some st ∧ st ≠ "X")
        ∨ ((readinessFor db users l.league_id).over_50 = false ∧
          (get_user_status db u l.league_id).isSome = true) := by
  unfold shouldShow
  rw [List.any_eq_true]
  constructor
  · rintro ⟨l, hl, hcond⟩
    refine ⟨l, hl, ?_⟩
    by_cases h50 : (readinessFor db users l.league_id).over_50 = true
    · rw [if_pos h50] at hcond
      left
      refine ⟨h50, ?_⟩
      cases hst : get_user_status db u l.league_id with
      | none =>
        rw [hst] at hcond
        exact absurd hcond (by simp)
      | some st =>
        rw [hst] at hcond
        exact ⟨st, rfl, by simpa using hcond⟩
    · rw [if_neg h50] at hcond
      right
      exact ⟨by simpa using h50, hcond⟩
  · rintro ⟨l, hl, hcase⟩
    refine ⟨l, hl, ?_⟩
    rcases hcase with ⟨h50, st, hst, hne⟩ | ⟨h50, hsome⟩
    · rw [if_pos h50, hst]
      simpa using hne
    · rw [if_neg (by simp [h50])]
      exact hsome

/-- C3: when some visible league is over the 50% threshold, the rendered
rows are exactly the visible users with a non-ready membership in some
over-threshold league or any membership in some under-threshold league;
with no league over threshold every visible user is shown; and an empty
filtered set renders the single `All Ready!` placeholder row. -/
theorem generate_table_row_filter (db : DB) (server_id : Nat) (show_all_servers : Bool) :
    (anyOver50 db (get_server_leagues db server_id show_all_servers)
        (get_server_users db server_id show_all_servers) = true →
      ∀ u, u ∈ filtered_users db server_id show_all_servers ↔
        u ∈ get_server_users db server_id show_all_servers ∧
        ∃ l ∈ get_server_leagues db server_id show_all_servers,
          ((readinessFor db (get_server_users db server_id show_all_servers)
              l.league_id).over_50 = true ∧
            ∃ st, get_user_status db u l.league_id = some st ∧ st ≠ "X")
          ∨ ((readinessFor db (get_server_users db server_id show_all_servers)
              l.league_id).over_50 = false ∧
            (get_user_status db u l.league_id).isSome = true))
    ∧ (anyOver50 db (get_server_leagues db server_id show_all_servers)
        (get_server_users db server_id show_all_servers) = false →
      filtered_users db server_id show_all_servers
        = get_server_users db server_id show_all_servers)
    ∧ (get_server_leagues db server_id show_all_servers ≠ [] →
      filtered_users db server_id show_all_servers = [] →
      ∃ pre post, generate_table db server_id show_all_servers
        = pre ++ pyCenter "All Ready!" 8 ++ post) := by
  refine ⟨?_, ?_, ?_⟩
  · intro h50 u
    unfold filtered_users
    rw [if_pos h50, List.mem_filter]
    rw [shouldShow_iff]
  · intro h50
    unfold filtered_users
    rw [if_neg (by simp [h50])]
  · intro hleagues hempty
    unfold generate_table
    rw [if_neg hleagues]
    unfold tableBody
    rw [if_pos hempty]
    unfold allReadyRow
    refine ⟨"```" ++ "\n"
        ++ borderLine (get_server_leagues db server_id show_all_servers).length
        ++ headerRow (get_server_leagues db server_id show_all_servers)
        ++ weekRow (get_server_leagues db server_id show_all_servers)
        ++ readyRow db (get_server_users db server_id show_all_servers)
            (get_server_leagues db server_id show_all_servers)
        ++ borderLine (get_server_leagues db server_id show_all_servers).length
        ++ "|",
      "|" ++ String.join (List.replicate (get_server_leagues db server_id show_all_servers).length
          (pyCenter " " 4 ++ "|")) ++ "\n"
        ++ borderLine (get_server_leagues db server_id show_all_servers).length
        ++ tableFoot db server_id show_all_servers ++ "```", ?_⟩
    simp only [String.append_assoc]

/-- Witness for C3: in the all-ready two-member state the single league is
100% ready, the filtered set is empty, and the table renders the
`All Ready!` placeholder. -/
theorem generate_table_row_filter_witness :
    ∃ pre post, generate_table dbAllReady 100 false
      = pre ++ pyCenter "All Ready!" 8 ++ post := by
  have h := generate_table_row_filter dbAllReady 100 false
  have hcond : anyOver50 dbAllReady (get_server_leagues dbAllReady 100 false)
      (get_server_users dbAllReady 100 false) = true := by
    unfold anyOver50
    simp only [over_50_iff]
    decide
  have husers : get_server_users dbAllReady 100 false = ["alice", "bob"] := by decide
  have hempty : filtered_users dbAllReady 100 false = [] := by
    unfold filtered_users
    rw [if_pos hcond, List.filter_eq_nil_iff]
    intro u hu
    rw [husers] at hu
    rcases List.mem_cons.mp hu with rfl | hu2
    · unfold shouldShow
      simp only [over_50_iff]
      decide
    · have hu3 : u = "bob" := by simpa using hu2
      rw [hu3]
      unfold shouldShow
      simp only [over_50_iff]
      decide
  exact h.2.2 (by decide) hempty

/-! ## Claim C9: the week invariant over the command surface -/

theorem updateWeek_ge_one {rows : List ServerLeagueRow} {s lid : Nat} {g : Int → Int}
    (hg : ∀ w : Int, 1 ≤ w → 1 ≤ g w)
    (h : ∀ sl ∈ rows, 1 ≤ sl.current_week) :
    ∀ sl ∈ updateWeek rows s lid g, 1 ≤ sl.current_week := by
  intro sl hsl
  obtain ⟨x, hx, hfx⟩ := List.mem_map.mp hsl
  by_cases hc : (x.server_id == s && x.league_id == lid) = true
  · rw [if_pos hc] at hfx
    rw [← hfx]
    exact hg _ (h x hx)
  · rw [if_neg hc] at hfx
    rw [← hfx]
    exact h x hx

theorem foldl_server_leagues_const {β : Type} (step : DB × β → String → DB × β)
    (hstep : ∀ acc ln, (step acc ln).1.server_leagues = acc.1.server_leagues) :
    ∀ (lns : List String) (acc : DB × β),
      (lns.foldl step acc).1.server_leagues = acc.1.server_leagues := by
  intro lns
  induction lns with
  | nil =>
    intro acc
    rfl
  | cons a t ih =>
    intro acc
    rw [List.foldl_cons, ih, hstep]

theorem add_existing_server_leagues (db : DB) (username : String) (lns : List String) :
    (add_existing_user_to_leagues db username lns).1.server_leagues = db.server_leagues := by
  unfold add_existing_user_to_leagues
  cases userIdOf db username with
  | none => rfl
  | some uid =>
    exact foldl_server_leagues_const _
      (fun acc ln => by cases hl : leagueIdOf acc.1 ln <;> rfl) lns (db, ([], []))

theorem upsertUser_server_leagues (db : DB) (username : String) :
    (upsertUser db username).server_leagues = db.server_leagues := by
  unfold upsertUser
  split <;> rfl

theorem add_user_server_leagues (db : DB) (username : String) (lns : List String) :
    (add_user_to_server db username lns).1.server_leagues = db.server_leagues := by
  unfold add_user_to_server
  cases hu : userIdOf (upsertUser db username) username with
  | none => exact upsertUser_server_leagues db username
  | some uid =>
    rw [foldl_server_leagues_const _
      (fun acc ln => by cases hl : leagueIdOf acc.1 ln <;> rfl) lns]
    exact upsertUser_server_leagues db username

theorem remove_server_leagues (db : DB) (username : String) (lns : List String) :
    (remove_user_from_leagues db username lns).1.server_leagues = db.server_leagues := by
  unfold remove_user_from_leagues
  cases userIdOf db username with
  | none => rfl
  | some uid =>
    exact foldl_server_leagues_const _ (fun acc ln => by rfl) lns (db, [])

theorem foldl_advance_week_inv (s : Nat) :
    ∀ (ls : List LeagueRow) (acc : DB × List String),
      (∀ sl ∈ acc.1.server_leagues, 1 ≤ sl.current_week) →
      ∀ sl ∈ (ls.foldl (advanceStep s) acc).1.server_leagues, 1 ≤ sl.current_week := by
  intro ls
  induction ls with
  | nil =>
    intro acc h
    exact h
  | cons a t ih =>
    intro acc h
    rw [List.foldl_cons]
    apply ih
    unfold advanceStep
    split
    · exact h
    · split
      · intro sl hsl
        have hsl2 : sl ∈ updateWeek acc.1.server_leagues s a.league_id (fun x => x + 1) := hsl
        exact updateWeek_ge_one (fun x hx => by omega) h sl hsl2
      · exact h

/-- C9: every state reachable from the empty database through the command
surface keeps every (server, league) week counter at 1 or more, and a
`set_week` request with a week below 1 is rejected before any store
mutation. -/
theorem week_counters_ge_one (db : DB) (s : Nat) (lname : String) (w : Int)
    (hreach : Reachable db) :
    weekInvariant db ∧ (w < 1 → set_week_command db s lname w = (db, false)) := by
  constructor
  · induction hreach with
    | init =>
      intro sl hsl
      cases hsl
    | @step db0 db1 _ hstep ih =>
      cases hstep with
      | createLeague name disp =>
        intro sl hsl
        unfold create_league at hsl
        by_cases hc : (db0.leagues.any fun l => l.name == pyLower name) = true
        · rw [if_pos hc] at hsl
          exact ih sl hsl
        · rw [if_neg hc] at hsl
          exact ih sl hsl
      | assignLeague s0 ln =>
        intro sl hsl
        unfold assign_league at hsl
        cases hf : db0.leagues.find? (fun l => l.name == pyLower ln) with
        | none =>
          simp only [hf] at hsl
          exact ih sl hsl
        | some l =>
          simp only [hf] at hsl
          by_cases hc : (db0.server_leagues.any fun x =>
              x.server_id == s0 && x.league_id == l.league_id) = true
          · rw [if_pos hc] at hsl
            exact ih sl hsl
          · rw [if_neg hc] at hsl
            rcases List.mem_append.mp hsl with hmem | hmem
            · exact ih sl hmem
            · have hsl2 : sl = ⟨s0, l.league_id, 1⟩ := by simpa using hmem
              rw [hsl2]
      | updateStatus username ln st =>
        intro sl hsl
        exact ih sl hsl
      | addUser username lns =>
        intro sl hsl
        rw [add_user_server_leagues] at hsl
        exact ih sl hsl
      | addMemberships username lns =>
        intro sl hsl
        rw [add_existing_server_leagues] at hsl
        exact ih sl hsl
      | removeMemberships username lns =>
        intro sl hsl
        rw [remove_server_leagues] at hsl
        exact ih sl hsl
      | deleteUser username =>
        intro sl hsl
        unfold delete_user_completely at hsl
        cases hu : userIdOf db0 username with
        | none =>
          simp only [hu] at hsl
          exact ih sl hsl
        | some uid =>
          simp only [hu] at hsl
          exact ih sl hsl
      | autoAdvance s0 =>
        exact foldl_advance_week_inv s0 (leaguesForServer db0 s0) (db0, []) ih
      | manualAdvance s0 ln =>
        intro sl hsl
        unfold advance_league at hsl
        cases hf : db0.leagues.find? (fun l => l.name == pyLower ln) with
        | none =>
          simp only [hf] at hsl
          exact ih sl hsl
        | some linfo =>
          simp only [hf] at hsl
          have hsl2 : sl ∈ updateWeek db0.server_leagues s0 linfo.league_id
              (fun x => x + 1) := hsl
          exact updateWeek_ge_one (fun x hx => by omega) ih sl hsl2
      | setWeek s0 ln wk =>
        intro sl hsl
        unfold set_week_command at hsl
        by_cases hwk : wk < 1
        · rw [if_pos hwk] at hsl
          exact ih sl hsl
        · rw [if_neg hwk] at hsl
          unfold set_league_week at hsl
          cases hh : (db0.leagues.flatMap fun l =>
              if l.name == pyLower ln then
                (db0.server_leagues.filter
                    (fun x => x.league_id == l.league_id && x.server_id == s0)).map
                  (fun x => (l, x))
              else []).head? with
          | none =>
            simp only [hh] at hsl
            exact ih sl hsl
          | some p =>
            simp only [hh] at hsl
            have hsl2 : sl ∈ updateWeek db0.server_leagues s0 p.1.league_id
                (fun _ => wk) := hsl
            exact updateWeek_ge_one (fun x _ => by omega) ih sl hsl2
  · intro hw
    unfold set_week_command
    rw [if_pos hw]

/-- Witness for C9: after creating `rel` and assigning it to server 100
(two reachable steps) every stored assignment week is at least 1. -/
theorem week_counters_ge_one_witness :
    ((assign_league (create_league initDB "rel" "REL").1 100 "rel").1.server_leagues.all
      (fun sl => decide (1 ≤ sl.current_week))) = true := by
  have h := week_counters_ge_one
    (assign_league (create_league initDB "rel" "REL").1 100 "rel").1 100 "rel" 1
    (Reachable.step (Reachable.step Reachable.init (Step.createLeague initDB "rel" "REL"))
      (Step.assignLeague (create_league initDB "rel" "REL").1 100 "rel"))
  rw [List.all_eq_true]
  intro sl hsl
  exact decide_eq_true (h.1 sl hsl)

/-! ## Claim C1: auto-advance characterization -/

theorem map_congr_fn {α β : Type} {f g : α → β} {l : List α} (h : ∀ x ∈ l, f x = g x) :
    l.map f = l.map g := by
  induction l with
  | nil => rfl
  | cons a t ih =>
    rw [List.map_cons, List.map_cons, h a (by simp), ih (fun x hx => h x (by simp [hx]))]

theorem filter_map_comm {α : Type} (f : α → α) (p : α → Bool) (l : List α)
    (h : ∀ x, p (f x) = p x) : (l.map f).filter p = (l.filter p).map f := by
  induction l with
  | nil => rfl
  | cons a t ih =>
    by_cases hpa : p a = true
    · rw [List.map_cons, List.filter_cons_of_pos ((h a).trans hpa),
        List.filter_cons_of_pos hpa, List.map_cons, ih]
    · rw [List.map_cons, List.filter_cons_of_neg (by rw [h a]; exact hpa),
        List.filter_cons_of_neg hpa, ih]

theorem clearRowIf_user (E : Nat → Bool) (m : UserLeagueRow) :
    (clearRowIf E m).user_id = m.user_id := by
  unfold clearRowIf
  split <;> rfl

theorem clearRowIf_league (E : Nat → Bool) (m : UserLeagueRow) :
    (clearRowIf E m).league_id = m.league_id := by
  unfold clearRowIf
  split <;> rfl

theorem bumpRowIf_server (s : Nat) (E : Nat → Bool) (sl : ServerLeagueRow) :
    (bumpRowIf s E sl).server_id = sl.server_id := by
  unfold bumpRowIf
  split <;> rfl

theorem bumpRowIf_league (s : Nat) (E : Nat → Bool) (sl : ServerLeagueRow) :
    (bumpRowIf s E sl).league_id = sl.league_id := by
  unfold bumpRowIf
  split <;> rfl

theorem total_users_applyElig (db : DB) (s : Nat) (E : Nat → Bool) (lid : Nat) :
    total_users (applyElig db s E) lid = total_users db lid := by
  unfold total_users totalUserIds
  show ((((db.user_leagues.map (clearRowIf E)).filter (fun m => m.league_id == lid &&
      db.users.any (fun u => u.user_id == m.user_id))).map
      (fun m => m.user_id)).dedup).length = _
  have hp : ∀ x : UserLeagueRow,
      ((clearRowIf E x).league_id == lid &&
        db.users.any (fun u => u.user_id == (clearRowIf E x).user_id))
      = (x.league_id == lid && db.users.any (fun u => u.user_id == x.user_id)) := by
    intro x
    rw [clearRowIf_league, clearRowIf_user]
  rw [filter_map_comm (clearRowIf E) _ db.user_leagues hp, List.map_map,
    map_congr_fn (f := (fun m : UserLeagueRow => m.user_id) ∘ clearRowIf E)
      (g := fun m : UserLeagueRow => m.user_id) (fun x _ => clearRowIf_user E x)]

theorem ready_users_applyElig (db : DB) (s : Nat) (E : Nat → Bool) (lid : Nat)
    (hE : E lid = false) :
    ready_users (applyElig db s E) lid = ready_users db lid := by
  unfold ready_users readyUserIds
  show ((((db.user_leagues.map (clearRowIf E)).filter (fun m => m.league_id == lid &&
      m.ready_status == "X" && db.users.any (fun u => u.user_id == m.user_id))).map
      (fun m => m.user_id)).dedup).length = _
  have hp : ∀ x : UserLeagueRow,
      ((clearRowIf E x).league_id == lid && (clearRowIf E x).ready_status == "X" &&
        db.users.any (fun u => u.user_id == (clearRowIf E x).user_id))
      = (x.league_id == lid && x.ready_status == "X" &&
        db.users.any (fun u => u.user_id == x.user_id)) := by
    intro x
    by_cases hxl : x.league_id = lid
    · have hc : E x.league_id = false := by
        rw [hxl]
        exact hE
      have hcx : clearRowIf E x = x := by
        unfold clearRowIf
        rw [if_neg (by simp [hc])]
      rw [hcx]
    · have h1 : ((clearRowIf E x).league_id == lid) = false := by
        rw [clearRowIf_league]
        exact beq_eq_false_iff_ne.mpr hxl
      have h2 : (x.league_id == lid) = false := beq_eq_false_iff_ne.mpr hxl
      rw [h1, h2]
      simp
  rw [filter_map_comm (clearRowIf E) _ db.user_leagues hp, List.map_map,
    map_congr_fn (f := (fun m : UserLeagueRow => m.user_id) ∘ clearRowIf E)
      (g := fun m : UserLeagueRow => m.user_id) (fun x _ => clearRowIf_user E x)]

theorem applyElig_status (db : DB) (s : Nat) (E : Nat → Bool) :
    ∀ m ∈ (applyElig db s E).user_leagues, E m.league_id = true → m.ready_status = "" := by
  intro m hm hE
  obtain ⟨x, _, hfx⟩ := List.mem_map.mp hm
  by_cases hc : E x.league_id = true
  · rw [← hfx]
    unfold clearRowIf
    rw [if_pos hc]
  · rw [← hfx, clearRowIf_league] at hE
    exact absurd hE hc

theorem applyElig_filter_league (db : DB) (s : Nat) (E : Nat → Bool) (lid : Nat)
    (hE : E lid = false) :
    (applyElig db s E).user_leagues.filter (fun m => m.league_id == lid)
      = db.user_leagues.filter (fun m => m.league_id == lid) := by
  show (db.user_leagues.map (clearRowIf E)).filter _ = _
  have hp : ∀ x : UserLeagueRow,
      ((clearRowIf E x).league_id == lid) = (x.league_id == lid) := by
    intro x
    rw [clearRowIf_league]
  rw [filter_map_comm _ _ _ hp]
  apply map_eq_self_of
  intro x hx
  have hxl : x.league_id = lid := by simpa using (List.mem_filter.mp hx).2
  unfold clearRowIf
  rw [if_neg (by simp [hxl, hE])]

theorem getWeek_applyElig (db : DB) (s : Nat) (E : Nat → Bool) (s1 lid1 : Nat) :
    getWeek (applyElig db s E) s1 lid1 =
      if s1 = s ∧ E lid1 = true then (getWeek db s1 lid1).map (fun x => x + 1)
      else getWeek db s1 lid1 := by
  unfold getWeek findWeek
  show ((db.server_leagues.map (bumpRowIf s E)).find? _).map _ = _
  have hpres : ∀ x : ServerLeagueRow,
      ((bumpRowIf s E x).server_id == s1 && (bumpRowIf s E x).league_id == lid1)
      = (x.server_id == s1 && x.league_id == lid1) := by
    intro x
    rw [bumpRowIf_server, bumpRowIf_league]
  rw [find?_map_comm db.server_leagues hpres]
  cases hf : db.server_leagues.find? (fun sl => sl.server_id == s1 && sl.league_id == lid1) with
  | none => split <;> rfl
  | some x =>
    have hx := List.find?_some hf
    simp only [Bool.and_eq_true, beq_iff_eq] at hx
    simp only [Option.map_some']
    by_cases hcase : s1 = s ∧ E lid1 = true
    · rw [if_pos hcase]
      unfold bumpRowIf
      rw [if_pos (by simp [hx.1, hx.2, hcase.1, hcase.2])]
    · rw [if_neg hcase]
      unfold bumpRowIf
      have hc : ¬ ((x.server_id == s && E x.league_id) = true) := by
        intro hc0
        simp only [Bool.and_eq_true, beq_iff_eq] at hc0
        exact hcase ⟨hx.1 ▸ hc0.1, hx.2 ▸ hc0.2⟩
      rw [if_neg hc]

theorem applyElig_congr (db : DB) (s : Nat) {E F : Nat → Bool}
    (h : ∀ lid, E lid = F lid) : applyElig db s E = applyElig db s F := by
  unfold applyElig
  have h1 : db.user_leagues.map (clearRowIf E) = db.user_leagues.map (clearRowIf F) :=
    map_congr_fn (fun x _ => by unfold clearRowIf; rw [h x.league_id])
  have h2 : db.server_leagues.map (bumpRowIf s E) = db.server_leagues.map (bumpRowIf s F) :=
    map_congr_fn (fun x _ => by unfold bumpRowIf; rw [h x.league_id])
  rw [h1, h2]

theorem applyElig_false (db : DB) (s : Nat) : applyElig db s (fun _ => false) = db := by
  unfold applyElig
  have h1 : db.user_leagues.map (clearRowIf (fun _ => false)) = db.user_leagues :=
    map_eq_self_of (fun x _ => rfl)
  have h2 : db.server_leagues.map (bumpRowIf s (fun _ => false)) = db.server_leagues :=
    map_eq_self_of (fun x _ => by unfold bumpRowIf; rw [if_neg (by simp)])
  rw [h1, h2]

theorem applyElig_comp (db : DB) (s : Nat) (E F : Nat → Bool)
    (hdisj : ∀ lid, ¬(E lid = true ∧ F lid = true)) :
    applyElig (applyElig db s E) s F = applyElig db s (fun lid => E lid || F lid) := by
  have h1 : ∀ x : UserLeagueRow,
      clearRowIf F (clearRowIf E x) = clearRowIf (fun lid => E lid || F lid) x := by
    intro x
    unfold clearRowIf
    by_cases hE : E x.league_id = true
    · rw [if_pos hE]
      by_cases hF : F x.league_id = true
      · rw [if_pos hF, if_pos (by simp [hE])]
      · rw [if_neg hF, if_pos (by simp [hE])]
    · rw [if_neg hE]
      by_cases hF : F x.league_id = true
      · rw [if_pos hF, if_pos (by simp [hF])]
      · rw [if_neg hF, if_neg (by simp [hE, hF])]
  have h2 : ∀ x : ServerLeagueRow,
      bumpRowIf s F (bumpRowIf s E x) = bumpRowIf s (fun lid => E lid || F lid) x := by
    intro x
    unfold bumpRowIf
    by_cases hE : (x.server_id == s && E x.league_id) = true
    · have hE2 := hE
      simp only [Bool.and_eq_true] at hE2
      rw [if_pos hE]
      have hF : ¬ ((({ x with current_week := x.current_week + 1 } :
          ServerLeagueRow).server_id == s
          && F ({ x with current_week := x.current_week + 1 } :
            ServerLeagueRow).league_id) = true) := by
        intro hc
        simp only [Bool.and_eq_true] at hc
        exact hdisj x.league_id ⟨hE2.2, hc.2⟩
      rw [if_neg hF, if_pos (by simp [hE2.1, hE2.2])]
    · rw [if_neg hE]
      by_cases hF : (x.server_id == s && F x.league_id) = true
      · have hF2 := hF
        simp only [Bool.and_eq_true] at hF2
        rw [if_pos hF, if_pos (by simp [hF2.1, hF2.2])]
      · have hno : ¬ ((x.server_id == s && (E x.league_id || F x.league_id)) = true) := by
          intro hc
          simp only [Bool.and_eq_true, Bool.or_eq_true] at hc
          rcases hc.2 with hce | hcf
          · exact hE (by simp [hc.1, hce])
          · exact hF (by simp [hc.1, hcf])
        rw [if_neg hF, if_neg hno]
  show ({ db with
      user_leagues := ((db.user_leagues.map (clearRowIf E)).map (clearRowIf F)),
      server_leagues := ((db.server_leagues.map (bumpRowIf s E)).map (bumpRowIf s F)) } : DB)
    = { db with
      user_leagues := (db.user_leagues.map (clearRowIf (fun lid => E lid || F lid))),
      server_leagues := (db.server_leagues.map (bumpRowIf s (fun lid => E lid || F lid))) }
  rw [List.map_map, List.map_map,
    map_congr_fn (f := clearRowIf F ∘ clearRowIf E)
      (g := clearRowIf (fun lid => E lid || F lid)) (fun x _ => h1 x),
    map_congr_fn (f := bumpRowIf s F ∘ bumpRowIf s E)
      (g := bumpRowIf s (fun lid => E lid || F lid)) (fun x _ => h2 x)]

theorem foldl_advance_applyElig (db : DB) (s : Nat) :
    ∀ (ls : List LeagueRow) (E : Nat → Bool) (ns : List String),
      ls.Pairwise (fun a b => a.league_id ≠ b.league_id) →
      (∀ l ∈ ls, E l.league_id = false) →
      ls.foldl (advanceStep s) (applyElig db s E, ns)
        = (applyElig db s (fun lid => E lid ||
            (ls.any (fun l => l.league_id == lid) && eligibleLeague db lid)),
           ns ++ (ls.filter (fun l => eligibleLeague db l.league_id)).map
             (fun l => l.display_name)) := by
  intro ls
  induction ls with
  | nil =>
    intro E ns _ _
    rw [List.foldl_nil, List.filter_nil, List.map_nil, List.append_nil]
    exact congrArg (fun d => (d, ns)) (applyElig_congr db s (fun lid => by simp))
  | cons a t ih =>
    intro E ns hpw hE
    rw [List.foldl_cons]
    have hpwt := (List.pairwise_cons.mp hpw).2
    have hEa : E a.league_id = false := hE a (by simp)
    have hT := total_users_applyElig db s E a.league_id
    have hR := ready_users_applyElig db s E a.league_id hEa
    by_cases helig : eligibleLeague db a.league_id = true
    · have he2 : ¬ total_users db a.league_id = 0 ∧
          (0 < ready_users db a.league_id ∧
            ready_users db a.league_id = total_users db a.league_id) := by
        simpa [eligibleLeague] using helig
      have hdisj : ∀ lid, ¬(E lid = true ∧ (lid == a.league_id) = true) := by
        rintro lid ⟨h1, h2⟩
        have hll : lid = a.league_id := by simpa using h2
        rw [hll] at h1
        exact absurd h1 (by simp [hEa])
      have hstep : advanceStep s (applyElig db s E, ns) a
          = (applyElig db s (fun lid => E lid || lid == a.league_id),
             ns ++ [a.display_name]) := by
        show (if total_users (applyElig db s E) a.league_id = 0 then (applyElig db s E, ns)
          else if 0 < ready_users (applyElig db s E) a.league_id ∧
              ready_users (applyElig db s E) a.league_id
                = total_users (applyElig db s E) a.league_id then
            ({ applyElig db s E with
                user_leagues := clearLeagueStatuses (applyElig db s E).user_leagues
                  a.league_id,
                server_leagues := bumpWeek (applyElig db s E).server_leagues s
                  a.league_id },
             ns ++ [a.display_name])
          else (applyElig db s E, ns)) = _
        rw [hT, hR, if_neg he2.1, if_pos he2.2]
        have hcomp : ({ applyElig db s E with
            user_leagues := clearLeagueStatuses (applyElig db s E).user_leagues a.league_id,
            server_leagues := bumpWeek (applyElig db s E).server_leagues s a.league_id } : DB)
            = applyElig (applyElig db s E) s (fun lid => lid == a.league_id) := rfl
        rw [hcomp, applyElig_comp db s E _ hdisj]
      rw [hstep]
      have hE2 : ∀ l ∈ t, (E l.league_id || (l.league_id == a.league_id)) = false := by
        intro l hl
        have h1 := hE l (by simp [hl])
        have h2 : (l.league_id == a.league_id) = false := by
          rw [beq_eq_false_iff_ne]
          exact fun hcontra => ((List.pairwise_cons.mp hpw).1 l hl) hcontra.symm
        simp [h1, h2]
      rw [ih (fun lid => E lid || lid == a.league_id) (ns ++ [a.display_name]) hpwt hE2]
      refine congrArg₂ Prod.mk ?_ ?_
      · apply applyElig_congr
        intro lid
        by_cases hl : lid = a.league_id
        · subst hl
          simp [helig]
        · have h1 : (lid == a.league_id) = false := beq_eq_false_iff_ne.mpr hl
          have h2 : (a.league_id == lid) = false :=
            beq_eq_false_iff_ne.mpr (fun hx => hl hx.symm)
          simp [h1, h2, List.any_cons]
      · rw [List.filter_cons_of_pos (p := fun l : LeagueRow => eligibleLeague db l.league_id) helig,
          List.map_cons, List.append_assoc, List.singleton_append]
    · have hstep : advanceStep s (applyElig db s E, ns) a = (applyElig db s E, ns) := by
        show (if total_users (applyElig db s E) a.league_id = 0 then (applyElig db s E, ns)
          else if 0 < ready_users (applyElig db s E) a.league_id ∧
              ready_users (applyElig db s E) a.league_id
                = total_users (applyElig db s E) a.league_id then
            ({ applyElig db s E with
                user_leagues := clearLeagueStatuses (applyElig db s E).user_leagues
                  a.league_id,
                server_leagues := bumpWeek (applyElig db s E).server_leagues s
                  a.league_id },
             ns ++ [a.display_name])
          else (applyElig db s E, ns)) = _
        rw [hT, hR]
        by_cases h0 : total_users db a.league_id = 0
        · rw [if_pos h0]
        · have hno : ¬(0 < ready_users db a.league_id ∧
              ready_users db a.league_id = total_users db a.league_id) := by
            intro hc
            apply helig
            simp only [eligibleLeague, decide_eq_true_eq]
            exact ⟨h0, hc⟩
          rw [if_neg h0, if_neg hno]
      rw [hstep, ih E ns hpwt (fun l hl => hE l (by simp [hl]))]
      refine congrArg₂ Prod.mk ?_ ?_
      · apply applyElig_congr
        intro lid
        by_cases hl : lid = a.league_id
        · subst hl
          have hf : eligibleLeague db a.league_id = false := by simpa using helig
          simp [hf, List.any_cons]
        · have h1 : (lid == a.league_id) = false := beq_eq_false_iff_ne.mpr hl
          have h2 : (a.league_id == lid) = false :=
            beq_eq_false_iff_ne.mpr (fun hx => hl hx.symm)
          simp [h1, h2, List.any_cons]
      · rw [List.filter_cons_of_neg (p := fun l : LeagueRow => eligibleLeague db l.league_id) helig]

theorem check_auto_advance_eq (db : DB) (s : Nat)
    (hpw : db.leagues.Pairwise (fun a b => a.league_id ≠ b.league_id)) :
    check_auto_advance db s
      = (applyElig db s (fun lid =>
          (leaguesForServer db s).any (fun l => l.league_id == lid)
            && eligibleLeague db lid),
         ((leaguesForServer db s).filter (fun l => eligibleLeague db l.league_id)).map
           (fun l => l.display_name)) := by
  have hpwf : (leaguesForServer db s).Pairwise (fun a b => a.league_id ≠ b.league_id) :=
    hpw.filter _
  have h := foldl_advance_applyElig db s (leaguesForServer db s) (fun _ => false) [] hpwf
    (fun l _ => rfl)
  rw [applyElig_false] at h
  unfold check_auto_advance
  rw [h, List.nil_append]
  refine congrArg₂ Prod.mk ?_ rfl
  exact applyElig_congr db s (fun lid => by simp)

/-- C1: one auto-advance pass advances exactly the leagues of this server
whose counts satisfy `total > 0` and `ready = total`; for each such league
every membership status is cleared globally and that one (server, league)
week is incremented by exactly 1; leagues with `total = 0` or `ready <
total` keep their memberships and week untouched; other servers' weeks are
untouched; each league is judged against the state at the start of the
pass. -/
theorem check_auto_advance_correct (db : DB) (s : Nat)
    (hpw : db.leagues.Pairwise (fun a b => a.league_id ≠ b.league_id)) :
    ((check_auto_advance db s).2
        = ((leaguesForServer db s).filter (fun l => eligibleLeague db l.league_id)).map
            (fun l => l.display_name))
    ∧ (∀ lid, eligibleLeague db lid = true ↔
        (0 < total_users db lid ∧ ready_users db lid = total_users db lid))
    ∧ (∀ l ∈ leaguesForServer db s, eligibleLeague db l.league_id = true →
        (∀ m ∈ (check_auto_advance db s).1.user_leagues,
          m.league_id = l.league_id → m.ready_status = "")
        ∧ getWeek (check_auto_advance db s).1 s l.league_id
            = (getWeek db s l.league_id).map (fun x => x + 1))
    ∧ (∀ l ∈ leaguesForServer db s, eligibleLeague db l.league_id = false →
        ((check_auto_advance db s).1.user_leagues.filter
            (fun m => m.league_id == l.league_id)
          = db.user_leagues.filter (fun m => m.league_id == l.league_id))
        ∧ getWeek (check_auto_advance db s).1 s l.league_id = getWeek db s l.league_id)
    ∧ (∀ s' lid', s' ≠ s →
        getWeek (check_auto_advance db s).1 s' lid' = getWeek db s' lid')
    ∧ (check_auto_advance db s).1.users = db.users
    ∧ (check_auto_advance db s).1.leagues = db.leagues := by
  have heq := check_auto_advance_eq db s hpw
  refine ⟨by rw [heq], ?_, ?_, ?_, ?_, by rw [heq]; rfl, by rw [heq]; rfl⟩
  · intro lid
    simp only [eligibleLeague, decide_eq_true_eq]
    constructor
    · rintro ⟨h1, _, h3⟩
      exact ⟨Nat.pos_of_ne_zero h1, h3⟩
    · rintro ⟨h1, h2⟩
      exact ⟨by omega, by omega, h2⟩
  · intro l hl helig
    have hEl : ((leaguesForServer db s).any (fun x => x.league_id == l.league_id)
        && eligibleLeague db l.league_id) = true := by
      simp only [Bool.and_eq_true]
      exact ⟨List.any_eq_true.mpr ⟨l, hl, by simp⟩, helig⟩
    constructor
    · intro m hm hml
      rw [heq] at hm
      refine applyElig_status db s _ m hm ?_
      rw [hml]
      exact hEl
    · rw [heq]
      show getWeek (applyElig db s _) s l.league_id = _
      rw [getWeek_applyElig]
      rw [if_pos ⟨rfl, hEl⟩]
  · intro l hl helig
    have hEl : ((leaguesForServer db s).any (fun x => x.league_id == l.league_id)
        && eligibleLeague db l.league_id) = false := by
      rw [helig, Bool.and_false]
    constructor
    · rw [heq]
      exact applyElig_filter_league db s _ l.league_id hEl
    · rw [heq]
      show getWeek (applyElig db s _) s l.league_id = _
      rw [getWeek_applyElig]
      rw [if_neg (fun hc => by rw [hEl] at hc; exact absurd hc.2 (by simp))]
  · intro s' lid' hs
    rw [heq]
    show getWeek (applyElig db s _) s' lid' = _
    rw [getWeek_applyElig]
    rw [if_neg (fun hc => hs hc.1)]

/-- Witness for C1: in the all-ready two-member state the pass advances
`rel`, reports it, moves the week from 1 to 2, and clears both statuses. -/
theorem check_auto_advance_correct_witness :
    (check_auto_advance dbAllReady 100).2 = ["REL"]
    ∧ getWeek (check_auto_advance dbAllReady 100).1 100 1 = some 2
    ∧ (check_auto_advance dbAllReady 100).1.user_leagues
        = [⟨1, 1, ""⟩, ⟨2, 1, ""⟩] := by
  have h := check_auto_advance_correct dbAllReady 100 (by decide)
  refine ⟨?_, ?_, ?_⟩
  · rw [h.1]
    decide
  · have h3 := (h.2.2.1 ⟨1, "rel", "REL"⟩ (by decide) (by decide)).2
    rw [h3]
    decide
  · decide

end CFBReady
